import Mathlib

/-!
Shallow embedding of the go-conv value-conversion engine.

The Go library converts between runtime values: primitives
(bool / int family / uint family / float family / complex family / string),
`time.Time`, pointers, slices, `map[string]interface{}` and structs.
We model the fragment of Go's value universe that the library manipulates:

* machine integers are `Int` with explicit range checks (Go `int`/`uint`
  are modelled at 64 bits, matching the `strconv.IntSize == 64` branch of
  the library's `init`);
* floats are exact rationals `ℚ`; the IEEE-754 representability facts a
  theorem needs are stated as explicit hypotheses;
* complex numbers are pairs of rationals;
* `time.Time` is a record of unix seconds, nanoseconds, and a location;
* a `nil` interface value is `GoValue.vnil`, distinct from a typed nil
  pointer `GoValue.ptr ty none`, a nil slice and a nil map, as in Go.

Map iteration order is modelled as association-list order.
-/

namespace GoConv

/-- Signed integer kinds of Go. `iInt` is the platform `int`, modelled at 64 bits. -/
inductive SIntK : Type
  | iInt | i8 | i16 | i32 | i64
deriving DecidableEq, Repr

/-- Unsigned integer kinds of Go. `uInt` is the platform `uint`, modelled at 64 bits. -/
inductive UIntK : Type
  | uInt | u8 | u16 | u32 | u64
deriving DecidableEq, Repr

/-- Float kinds of Go. -/
inductive FloatK : Type
  | f32 | f64
deriving DecidableEq, Repr

/-- Complex kinds of Go. -/
inductive CplxK : Type
  | c64 | c128
deriving DecidableEq, Repr

/-- A primitive Go value: bool, string, integer, unsigned, float or complex,
tagged with its concrete kind. -/
inductive Prim : Type
  | pb (b : Bool)
  | ps (s : String)
  | pi (k : SIntK) (n : Int)
  | pu (k : UIntK) (n : Int)
  | pf (k : FloatK) (q : ℚ)
  | pc (k : CplxK) (re im : ℚ)
deriving DecidableEq, Repr

/-- A time zone / location, as carried by a `time.Time` value. -/
inductive GoZone : Type
  | utc
  | local
  | fixed (offsetSeconds : Int)
deriving DecidableEq, Repr

/-- Model of `time.Time`: unix seconds, nanoseconds and the location. -/
structure GoTime : Type where
  sec : Int
  nsec : Int
  zone : GoZone
deriving DecidableEq, Repr

/-- The zero `time.Time{}` value; its `Unix()` is -62135596800 (year 1). -/
def goZeroTime : GoTime := ⟨-62135596800, 0, GoZone.utc⟩

/-- `reflect.Kind` for the modelled fragment (Uintptr, chan, func etc. are
outside the modelled universe). -/
inductive GoKind : Type
  | kInvalid
  | kBool
  | kInt | kInt8 | kInt16 | kInt32 | kInt64
  | kUint | kUint8 | kUint16 | kUint32 | kUint64
  | kFloat32 | kFloat64
  | kComplex64 | kComplex128
  | kString
  | kStruct
  | kPtr
  | kSlice
  | kMap
  | kInterface
deriving DecidableEq, Repr

/-- Types of the modelled fragment.  A struct type carries its name and
fields `(name, exported, anonymous, type)`.  `strMap` is
`map[string]interface{}`, the only map type the library's struct paths use.
`iface` is the empty interface type. -/
inductive GoType : Type
  | prim (k : GoKind)
  | time
  | iface
  | ptr (t : GoType)
  | slice (t : GoType)
  | strMap
  | strct (name : String) (fields : List (String × Bool × Bool × GoType))

/-- Runtime values of the modelled fragment.  Pointers, slices carry their
element type so that `reflect.TypeOf` is recoverable; `none` payloads are
typed nils.  `vnil` is the nil interface value. -/
inductive GoValue : Type
  | vnil
  | prim (p : Prim)
  | time (t : GoTime)
  | ptr (pointee : GoType) (v : Option GoValue)
  | slice (elemTy : GoType) (elems : Option (List GoValue))
  | strMap (entries : Option (List (String × GoValue)))
  | strct (ty : GoType) (fieldVals : List GoValue)

/-- Names of the library functions that wrap errors (`errForFunction`). -/
inductive Fn : Type
  | fConvertType | fConvert
  | fSimpleToSimple | fSimpleToBool | fSimpleToString
  | fStringToSlice | fSliceToSlice
  | fMapToMap | fMapToStruct | fStructToMap | fStructToStruct
deriving DecidableEq, Repr

/-- Structured model of the library's error values.  Go errors are strings;
we keep the error constructor and the `errForFunction` wrapping chain, and
summarize the offending destination type by its kind. -/
inductive GoErr : Type
  | outOfFuel
  | overflow (dst : GoKind)
  | precisionLoss (dst : GoKind)
  | imagLoss (dst : GoKind)
  | cantConvertTo (dst : GoKind)
  | cantConvertTime
  | cantConvertNil
  | cantConvert
  | parseFail (dst : GoKind)
  | sourceNil (fn : Fn)
  | invalidArg (fn : Fn)
  | mustBePointer
  | ptrMustInit
  | underlyingMustInit
  | converterFail (i : Nat) (e : GoErr)
  | fieldFail (name : String) (e : GoErr)
  | keyFail (name : String) (e : GoErr)
  | valFail (name : String) (e : GoErr)
  | atIndex (i : Nat) (e : GoErr)
  | forFn (fn : Fn) (e : GoErr)
deriving DecidableEq, Repr

/-! ## utils.go: kind and type classification -/

/-- The `reflect.Kind` of a primitive value (its kind tag). -/
def Prim.kind : Prim → GoKind
  | .pb _ => .kBool
  | .ps _ => .kString
  | .pi .iInt _ => .kInt
  | .pi .i8 _ => .kInt8
  | .pi .i16 _ => .kInt16
  | .pi .i32 _ => .kInt32
  | .pi .i64 _ => .kInt64
  | .pu .uInt _ => .kUint
  | .pu .u8 _ => .kUint8
  | .pu .u16 _ => .kUint16
  | .pu .u32 _ => .kUint32
  | .pu .u64 _ => .kUint64
  | .pf .f32 _ => .kFloat32
  | .pf .f64 _ => .kFloat64
  | .pc .c64 _ _ => .kComplex64
  | .pc .c128 _ _ => .kComplex128

/-- `reflect.Kind` of a type in the modelled universe.  `time.Time` and all
struct types have kind `Struct`. -/
def GoType.kind : GoType → GoKind
  | .prim k => k
  | .time => .kStruct
  | .iface => .kInterface
  | .ptr _ => .kPtr
  | .slice _ => .kSlice
  | .strMap => .kMap
  | .strct _ _ => .kStruct

/-- `reflect.Kind` of a runtime value (`reflect.ValueOf(v).Kind()`);
the nil interface gives `Invalid`. -/
def GoValue.kind : GoValue → GoKind
  | .vnil => .kInvalid
  | .prim p => p.kind
  | .time _ => .kStruct
  | .ptr _ _ => .kPtr
  | .slice _ _ => .kSlice
  | .strMap _ => .kMap
  | .strct _ _ => .kStruct

/-- `reflect.TypeOf` on a non-nil value of the modelled universe.
`vnil` has no type in Go; the `iface` result for it is never consulted. -/
def GoValue.typeOf : GoValue → GoType
  | .vnil => .iface
  | .prim p => .prim p.kind
  | .time _ => .time
  | .ptr t _ => .ptr t
  | .slice t _ => .slice t
  | .strMap _ => .strMap
  | .strct ty _ => ty

/-- `src == nil` on an interface value. -/
def GoValue.isNilIface : GoValue → Bool
  | .vnil => true
  | _ => false

/-- `dstValue.IsZero()` on a pointer `reflect.Value`: a typed nil pointer. -/
def GoValue.isNilPtr : GoValue → Bool
  | .ptr _ none => true
  | _ => false

/-- `dstTyp == typEmptyInterface`. -/
def GoType.isIfaceT : GoType → Bool
  | .iface => true
  | _ => false

/-- `dstTyp.Kind() == reflect.Ptr`. -/
def GoType.isPtrT : GoType → Bool
  | .ptr _ => true
  | _ => false

/-- `IsPrimitiveKind`: bool, the int and uint families, the float and
complex families, and string (`Uintptr` is excluded). -/
def isPrimitiveKind : GoKind → Bool
  | .kBool | .kString => true
  | .kInt | .kInt8 | .kInt16 | .kInt32 | .kInt64 => true
  | .kUint | .kUint8 | .kUint16 | .kUint32 | .kUint64 => true
  | .kFloat32 | .kFloat64 | .kComplex64 | .kComplex128 => true
  | _ => false

/-- `IsPrimitiveType`. -/
def isPrimitiveType (t : GoType) : Bool := isPrimitiveKind t.kind

/-- `t.ConvertibleTo(typTime)`: in the modelled universe only `time.Time`
itself (named time-convertible types are outside the model). -/
def convertibleToTime : GoType → Bool
  | .time => true
  | _ => false

/-- `IsSimpleType`: primitive or convertible to `time.Time`. -/
def isSimpleType (t : GoType) : Bool := isPrimitiveType t || convertibleToTime t

def isKindInt : GoKind → Bool
  | .kInt | .kInt8 | .kInt16 | .kInt32 | .kInt64 => true
  | _ => false

def isKindUint : GoKind → Bool
  | .kUint | .kUint8 | .kUint16 | .kUint32 | .kUint64 => true
  | _ => false

def isKindFloat : GoKind → Bool
  | .kFloat32 | .kFloat64 => true
  | _ => false

def isKindComplex : GoKind → Bool
  | .kComplex64 | .kComplex128 => true
  | _ => false

/-! Numeric bounds.  The platform `int`/`uint` are modelled at 64 bits,
matching the `strconv.IntSize == 64` branch of the library's `init`. -/

def maxInt64 : Int := 2 ^ 63 - 1
def minInt64 : Int := -(2 ^ 63)
def maxUint64 : Int := 2 ^ 64 - 1
def minIntV : Int := minInt64
def maxIntV : Int := maxInt64
def maxUintV : Int := maxUint64

/-- `math.MaxInt64` as it participates in a float64 comparison: the untyped
constant 2^63-1 rounds to 2^63 when converted to float64. -/
def maxInt64F : ℚ := 2 ^ 63

/-- `math.MinInt64` as float64 (exactly representable). -/
def minInt64F : ℚ := -(2 ^ 63)

/-- `math.MaxUint64` as it participates in a float64 comparison: rounds to 2^64. -/
def maxUint64F : ℚ := 2 ^ 64

/-- `math.MaxFloat32` as an exact rational: (2^24 - 1) * 2^104. -/
def maxFloat32Q : ℚ := (2 ^ 24 - 1) * 2 ^ 104

/-- `math.Trunc`: round toward zero. -/
def goTrunc (q : ℚ) : Int := if q < 0 then -((-q).floor) else q.floor

/-! ## strconv boundary

The library delegates string parsing and formatting to the Go standard
library.  These functions model that boundary: `parseBool` is exact;
the numeric parsers cover the decimal forms (base prefixes, exponents and
full complex literals are outside the modelled fragment and parse as
errors); float formatting uses an injective textual encoding rather than
the shortest-decimal algorithm.  No claim below depends on the unmodelled
parts. -/

/-- `strconv.ParseBool`. -/
def parseBool : String → Except GoErr Bool
  | "1" | "t" | "T" | "TRUE" | "true" | "True" => .ok true
  | "0" | "f" | "F" | "FALSE" | "false" | "False" => .ok false
  | _ => .error (.parseFail .kBool)

def digitsToNat : List Char → Option Nat
  | [] => none
  | cs =>
    cs.foldl (fun acc c =>
      match acc with
      | none => none
      | some n => if c.isDigit then some (n * 10 + (c.toNat - 48)) else none)
      (some 0)

/-- Decimal fragment of `strconv.ParseInt(s, 0, 64)`. -/
def parseInt0 (s : String) : Except GoErr Int :=
  let cs := s.toList
  let (neg, ds) :=
    match cs with
    | '-' :: rest => (true, rest)
    | '+' :: rest => (false, rest)
    | _ => (false, cs)
  match digitsToNat ds with
  | none => .error (.parseFail .kInt64)
  | some n =>
    let v : Int := if neg then -(n : Int) else (n : Int)
    if v < minInt64 || v > maxInt64 then .error (.overflow .kInt64)
    else .ok v

/-- Decimal fragment of `strconv.ParseUint(s, 0, 64)`. -/
def parseUint0 (s : String) : Except GoErr Int :=
  let cs := s.toList
  let ds := match cs with | '+' :: rest => rest | _ => cs
  match digitsToNat ds with
  | none => .error (.parseFail .kUint64)
  | some n =>
    if (n : Int) > maxUint64 then .error (.overflow .kUint64)
    else .ok (n : Int)

/-- Decimal fragment of `strconv.ParseFloat(s, 64)`. -/
def parseFloatQ (s : String) : Except GoErr ℚ :=
  let cs := s.toList
  let (neg, rest) :=
    match cs with
    | '-' :: r => (true, r)
    | '+' :: r => (false, r)
    | _ => (false, cs)
  let (intPart, fracPart) :=
    match rest.span (fun c => c ≠ '.') with
    | (ip, []) => (ip, ([] : List Char))
    | (ip, _ :: fp) => (ip, fp)
  match digitsToNat intPart, fracPart with
  | some n, [] =>
    let q : ℚ := (n : ℚ)
    .ok (if neg then -q else q)
  | some n, fp =>
    match digitsToNat fp with
    | some f =>
      let q : ℚ := (n : ℚ) + (f : ℚ) / ((10 : ℚ) ^ fp.length)
      .ok (if neg then -q else q)
    | none => .error (.parseFail .kFloat64)
  | none, _ => .error (.parseFail .kFloat64)

/-- Fragment of `strconv.ParseComplex(s, 128)`: real-only literals. -/
def parseComplexQ (s : String) : Except GoErr (ℚ × ℚ) :=
  match parseFloatQ s with
  | .ok q => .ok (q, 0)
  | .error _ => .error (.parseFail .kComplex128)

/-- Injective stand-in for `fmt.Sprint` on a float64 value. -/
def fmtRat (q : ℚ) : String :=
  if q.den = 1 then toString q.num
  else toString q.num ++ "/" ++ toString q.den

/-- Stand-in for `fmt.Sprint` on a complex value with non-zero imaginary
part, e.g. `(-123+99i)`. -/
def fmtCplx (re im : ℚ) : String :=
  "(" ++ fmtRat re ++ "+" ++ fmtRat im ++ "i)"

/-! ## conv_primitive.go: conversions between booleans, strings and numbers

The Go code dispatches on `reflect.ValueOf(v).Kind()`; in the model a
primitive's kind is determined by its `Prim` constructor, so the kind
switches become constructor matches.  Inputs are always primitives here
(every call site has checked `IsPrimitiveType` first), so the
`errCantConvertTo` fallthrough branches of the kind switches are
unreachable and have no counterpart in the total matches below. -/

/-- `primitiveConv.toBool`: zero values to false, non-zero values to true;
strings via `strconv.ParseBool`. -/
def primToBool : Prim → Except GoErr Bool
  | .ps s => parseBool s
  | .pb b => .ok b
  | .pi _ n => .ok (n != 0)
  | .pu _ n => .ok (n != 0)
  | .pf _ q => .ok (q != 0)
  | .pc _ re im => .ok (!(re == 0 && im == 0))

/-- `primitiveConv.toString`: booleans render as "1"/"0"; complex values
with zero imaginary part render as their real part only. -/
def primToString : Prim → String
  | .pb true => "1"
  | .pb false => "0"
  | .ps s => s
  | .pc _ re im => if im == 0 then fmtRat re else fmtCplx re im
  | .pi _ n => toString n
  | .pu _ n => toString n
  | .pf _ q => fmtRat q

/-- `primitiveConv.doFloat64ToInt64`: range check against the float64
images of MinInt64/MaxInt64, then reject a non-zero fractional part. -/
def doFloat64ToInt64 (q : ℚ) (dst : GoKind) : Except GoErr Int :=
  if q < minInt64F || q > maxInt64F then .error (.overflow dst)
  else if q != ((goTrunc q : Int) : ℚ) then .error (.precisionLoss dst)
  else .ok (goTrunc q)

/-- `primitiveConv.doPrimitiveToInt64`. -/
def doPrimitiveToInt64 (v : Prim) (dst : GoKind) : Except GoErr Int :=
  match v with
  | .ps s => parseInt0 s
  | .pb b => .ok (if b then 1 else 0)
  | .pi _ n => .ok n
  | .pu _ n => if n > maxInt64 then .error (.overflow dst) else .ok n
  | .pf _ q => doFloat64ToInt64 q dst
  | .pc _ re im =>
    if im != 0 then .error (.imagLoss dst)
    else doFloat64ToInt64 re dst

def toInt64P (v : Prim) : Except GoErr Prim :=
  (doPrimitiveToInt64 v .kInt64).map (.pi .i64)

def toIntP (v : Prim) : Except GoErr Prim :=
  match doPrimitiveToInt64 v .kInt with
  | .error e => .error e
  | .ok num =>
    if num < minIntV || num > maxIntV then .error (.overflow .kInt)
    else .ok (.pi .iInt num)

def toInt32P (v : Prim) : Except GoErr Prim :=
  match doPrimitiveToInt64 v .kInt32 with
  | .error e => .error e
  | .ok num =>
    if num < -(2 ^ 31) || num > 2 ^ 31 - 1 then .error (.overflow .kInt32)
    else .ok (.pi .i32 num)

def toInt16P (v : Prim) : Except GoErr Prim :=
  match doPrimitiveToInt64 v .kInt16 with
  | .error e => .error e
  | .ok num =>
    if num < -(2 ^ 15) || num > 2 ^ 15 - 1 then .error (.overflow .kInt16)
    else .ok (.pi .i16 num)

/-- `primitiveConv.toInt8`. -/
def toInt8P (v : Prim) : Except GoErr Prim :=
  match doPrimitiveToInt64 v .kInt8 with
  | .error e => .error e
  | .ok num =>
    if num < -(2 ^ 7) || num > 2 ^ 7 - 1 then .error (.overflow .kInt8)
    else .ok (.pi .i8 num)

/-- `primitiveConv.doFloatToUint`: the sign check precedes the
fractional-part check. -/
def doFloatToUint (q : ℚ) (dst : GoKind) : Except GoErr Int :=
  if q < 0 || q > maxUint64F then .error (.overflow dst)
  else if q != ((goTrunc q : Int) : ℚ) then .error (.precisionLoss dst)
  else .ok (goTrunc q)

/-- `primitiveConv.doPrimitiveToUint64`. -/
def doPrimitiveToUint64 (v : Prim) (dst : GoKind) : Except GoErr Int :=
  match v with
  | .ps s => parseUint0 s
  | .pb b => .ok (if b then 1 else 0)
  | .pi _ n => if n < 0 then .error (.overflow dst) else .ok n
  | .pu _ n => .ok n
  | .pf _ q => doFloatToUint q dst
  | .pc _ re im =>
    if im != 0 then .error (.imagLoss dst)
    else doFloatToUint re dst

def toUint64P (v : Prim) : Except GoErr Prim :=
  (doPrimitiveToUint64 v .kUint64).map (.pu .u64)

def toUintP (v : Prim) : Except GoErr Prim :=
  match doPrimitiveToUint64 v .kUint with
  | .error e => .error e
  | .ok num =>
    if num > maxUintV then .error (.overflow .kUint)
    else .ok (.pu .uInt num)

def toUint32P (v : Prim) : Except GoErr Prim :=
  match doPrimitiveToUint64 v .kUint32 with
  | .error e => .error e
  | .ok num =>
    if num > 2 ^ 32 - 1 then .error (.overflow .kUint32)
    else .ok (.pu .u32 num)

def toUint16P (v : Prim) : Except GoErr Prim :=
  match doPrimitiveToUint64 v .kUint16 with
  | .error e => .error e
  | .ok num =>
    if num > 2 ^ 16 - 1 then .error (.overflow .kUint16)
    else .ok (.pu .u16 num)

def toUint8P (v : Prim) : Except GoErr Prim :=
  match doPrimitiveToUint64 v .kUint8 with
  | .error e => .error e
  | .ok num =>
    if num > 2 ^ 8 - 1 then .error (.overflow .kUint8)
    else .ok (.pu .u8 num)

/-- `primitiveConv.doPrimitiveToFloat64`. -/
def doPrimitiveToFloat64 (v : Prim) (dst : GoKind) : Except GoErr ℚ :=
  match v with
  | .ps s => parseFloatQ s
  | .pb b => .ok (if b then 1 else 0)
  | .pi _ n => .ok (n : ℚ)
  | .pu _ n => .ok (n : ℚ)
  | .pf _ q => .ok q
  | .pc _ re im =>
    if im != 0 then .error (.imagLoss dst)
    else .ok re

def toFloat64P (v : Prim) : Except GoErr Prim :=
  (doPrimitiveToFloat64 v .kFloat64).map (.pf .f64)

/-- `primitiveConv.toFloat32`; the final `float32(num)` narrowing is
modelled as exact (every float32-sourced value is exactly representable). -/
def toFloat32P (v : Prim) : Except GoErr Prim :=
  match doPrimitiveToFloat64 v .kFloat32 with
  | .error e => .error e
  | .ok num =>
    if num < -maxFloat32Q || num > maxFloat32Q then .error (.overflow .kFloat32)
    else .ok (.pf .f32 num)

/-- `primitiveConv.doPrimitiveToComplex128`.  The destination name is only
used by the unreachable fallthrough branch of the source. -/
def doPrimitiveToComplex128 (v : Prim) (_dst : GoKind) : Except GoErr (ℚ × ℚ) :=
  match v with
  | .ps s => parseComplexQ s
  | .pb b => .ok (if b then 1 else 0, 0)
  | .pi _ n => .ok ((n : ℚ), 0)
  | .pu _ n => .ok ((n : ℚ), 0)
  | .pf _ q => .ok (q, 0)
  | .pc _ re im => .ok (re, im)

def toComplex128P (v : Prim) : Except GoErr Prim :=
  (doPrimitiveToComplex128 v .kComplex128).map (fun p => .pc .c128 p.1 p.2)

/-- `primitiveConv.toComplex64`; the `complex64(num)` narrowing is
modelled as exact. -/
def toComplex64P (v : Prim) : Except GoErr Prim :=
  (doPrimitiveToComplex128 v .kComplex64).map (fun p => .pc .c64 p.1 p.2)

/-- `primitiveConv.toPrimitive`: dispatch on the destination kind.  The
source panics on a non-primitive kind; that branch is unreachable at every
call site (each one checks `IsPrimitiveKind` first) and is modelled as an
error. -/
def toPrimitive (v : Prim) (dstKind : GoKind) : Except GoErr Prim :=
  match dstKind with
  | .kBool => (primToBool v).map .pb
  | .kString => .ok (.ps (primToString v))
  | .kInt => toIntP v
  | .kInt8 => toInt8P v
  | .kInt16 => toInt16P v
  | .kInt32 => toInt32P v
  | .kInt64 => toInt64P v
  | .kUint => toUintP v
  | .kUint8 => toUint8P v
  | .kUint16 => toUint16P v
  | .kUint32 => toUint32P v
  | .kUint64 => toUint64P v
  | .kFloat32 => toFloat32P v
  | .kFloat64 => toFloat64P v
  | .kComplex64 => toComplex64P v
  | .kComplex128 => toComplex128P v
  | _ => .error .cantConvert

/-! ## conv.go: Config and defaults -/

/-- A `ConvertFunc` custom converter: returns `(result, err)`; `(none, none)`
means "no opinion". -/
def ConvFunc : Type := GoValue → GoType → Option GoValue × Option GoErr

/-- `Config`.  The field-matcher creator is fixed to the default
`SimpleMatcherCreator` with a zero `SimpleMatcherConfig` (no tag, exact
name matching), which is what a zero `Conv` uses. -/
structure GoConfig : Type where
  stringSplitter : Option (String → List String)
  customConverters : List ConvFunc
  timeToString : Option (GoTime → Except GoErr String)
  stringToTime : Option (String → Except GoErr GoTime)

def GoZone.encode : GoZone → String
  | .utc => "Z"
  | .local => "L"
  | .fixed off => toString off

def GoZone.decode (s : String) : Except GoErr GoZone :=
  match s with
  | "Z" => .ok .utc
  | "L" => .ok .local
  | _ => (parseInt0 s).map .fixed

/-- `DefaultTimeToString` formats with `time.RFC3339`; the civil-date
rendering is a stdlib boundary, modelled by an injective encoding of the
time record. -/
def defaultTimeToString (t : GoTime) : Except GoErr String :=
  .ok (toString t.sec ++ "|" ++ toString t.nsec ++ "|" ++ t.zone.encode)

/-- `DefaultStringToTime` parses with `time.RFC3339Nano`; modelled as the
inverse of the encoding above (zone taken from the string). -/
def timeFieldSep : String := "|"

/-- The empty string (the name avoids a bare literal in argument position). -/
def emptyString : String := ""

def defaultStringToTime (s : String) : Except GoErr GoTime :=
  match s.splitOn timeFieldSep with
  | [a, b, c] => do
    let sec ← parseInt0 a
    let nsec ← parseInt0 b
    let z ← GoZone.decode c
    .ok ⟨sec, nsec, z⟩
  | _ => .error (.parseFail .kStruct)

/-- The zero `Config` of a zero `Conv` value. -/
def defaultConfig : GoConfig := ⟨none, [], none, none⟩

/-- `Conv.doSplitString`: with no splitter the whole string is one element. -/
def doSplitString (cfg : GoConfig) (v : String) : List String :=
  match cfg.stringSplitter with
  | none => [v]
  | some f => f v

def doTimeToString (cfg : GoConfig) (t : GoTime) : Except GoErr String :=
  match cfg.timeToString with
  | some f => f t
  | none => defaultTimeToString t

def doStringToTime (cfg : GoConfig) (s : String) : Except GoErr GoTime :=
  match cfg.stringToTime with
  | some f => f s
  | none => defaultStringToTime s

/-! ## Reflection helpers -/

/-- Zero value of a primitive kind (`reflect.Zero`). -/
def zeroPrim : GoKind → Prim
  | .kBool => .pb false
  | .kString => .ps emptyString
  | .kInt => .pi .iInt 0
  | .kInt8 => .pi .i8 0
  | .kInt16 => .pi .i16 0
  | .kInt32 => .pi .i32 0
  | .kInt64 => .pi .i64 0
  | .kUint => .pu .uInt 0
  | .kUint8 => .pu .u8 0
  | .kUint16 => .pu .u16 0
  | .kUint32 => .pu .u32 0
  | .kUint64 => .pu .u64 0
  | .kFloat32 => .pf .f32 0
  | .kFloat64 => .pf .f64 0
  | .kComplex64 => .pc .c64 0 0
  | .kComplex128 => .pc .c128 0 0
  | _ => .pb false

mutual

/-- `reflect.Zero(t)` / `reflect.New(t).Elem()`. -/
def zeroValue : GoType → GoValue
  | .prim k => .prim (zeroPrim k)
  | .time => .time goZeroTime
  | .iface => .vnil
  | .ptr t => .ptr t none
  | .slice t => .slice t none
  | .strMap => .strMap none
  | .strct nm fs => .strct (.strct nm fs) (zeroFieldVals fs)

def zeroFieldVals : List (String × Bool × Bool × GoType) → List GoValue
  | [] => []
  | (_, _, _, t) :: rest => zeroValue t :: zeroFieldVals rest

end

/-- `Conv.getUnderlyingValue`: dereference pointer layers; a nil pointer
yields the nil interface value. -/
def getUnderlyingValue : GoValue → GoValue
  | .vnil => .vnil
  | .ptr _ none => .vnil
  | .ptr _ (some inner) => getUnderlyingValue inner
  | v => v

/-- `Conv.tryFlattenEmptyKeyMap`: a `map[string]interface{}` with exactly
one entry whose key is the empty string yields that entry's value.  In Go
the function returns `nil` both for "no flatten" and for a nil entry
value; the two are indistinguishable to the caller, so a nil entry value
is folded into `none` here. -/
def tryFlattenEmptyKeyMap : GoValue → Option GoValue
  | .strMap (some [(k, v)]) =>
    if k == "" then
      match v with
      | .vnil => none
      | _ => some v
    else none
  | _ => none

/-- The pointer-depth count-and-strip loop of `Conv.ConvertType`. -/
def stripPtrDepth : GoType → Nat × GoType
  | .ptr t =>
    let (d, b) := stripPtrDepth t
    (d + 1, b)
  | t => (0, t)

/-- The re-wrap loop of `Conv.ConvertType`: wrap in `d` freshly allocated
pointer layers; each layer's type is the dynamic type of the layer below. -/
def wrapPtrs : Nat → GoValue → GoValue
  | 0, v => v
  | d + 1, v =>
    let w := wrapPtrs d v
    .ptr w.typeOf (some w)

/-! ## conv.go: simple-type conversions -/

/-- `Conv.simpleToTime`: a time source is copied verbatim; a string goes
through `stringToTime`; any other primitive is an int64 unix timestamp
producing a `time.Local` time (`time.Unix`). -/
def simpleToTime (cfg : GoConfig) : GoValue → Except GoErr GoTime
  | .time t => .ok t
  | .prim (.ps s) => doStringToTime cfg s
  | .prim p => (doPrimitiveToInt64 p .kInt64).map (fun ts => ⟨ts, 0, .local⟩)
  | _ => .error .cantConvertTime

/-- `Conv.simpleToPrimitive`. -/
def simpleToPrimitive (cfg : GoConfig) (src : GoValue) (dstKind : GoKind) :
    Except GoErr Prim :=
  match src with
  | .prim p => toPrimitive p dstKind
  | .time t =>
    if dstKind == .kString then (doTimeToString cfg t).map .ps
    else if isPrimitiveKind dstKind then toPrimitive (.pi .i64 t.sec) dstKind
    else .error .cantConvert
  | _ => .error .cantConvert

/-- `Conv.SimpleToSimple`.  The final "convert if necessary" step of the
source re-types the result for named types, which are outside the modelled
universe; the result already has the destination type here. -/
def simpleToSimple (cfg : GoConfig) (src : GoValue) (dstTyp : GoType) :
    Except GoErr GoValue :=
  match src with
  | .vnil => .error (.sourceNil .fSimpleToSimple)
  | _ =>
    let dstKind := dstTyp.kind
    if isPrimitiveKind dstKind then
      match simpleToPrimitive cfg src dstKind with
      | .ok p => .ok (.prim p)
      | .error e => .error (.forFn .fSimpleToSimple e)
    else if convertibleToTime dstTyp then
      match simpleToTime cfg src with
      | .ok t => .ok (.time t)
      | .error e => .error (.forFn .fSimpleToSimple e)
    else .error (.forFn .fSimpleToSimple .cantConvert)

/-- `Conv.SimpleToBool`: nil converts to false with no error.  The config
receiver is unused by the source function. -/
def simpleToBool (_cfg : GoConfig) (simple : GoValue) : Except GoErr Bool :=
  match simple with
  | .vnil => .ok false
  | .prim p =>
    match primToBool p with
    | .ok res => .ok res
    | .error e => .error (.forFn .fSimpleToBool e)
  | .time t => .ok (t.sec != 0)
  | _ => .error (.forFn .fSimpleToBool .cantConvert)

/-- `Conv.SimpleToString`: a nil source is an error, unlike `SimpleToBool`. -/
def simpleToString (cfg : GoConfig) (v : GoValue) : Except GoErr String :=
  match v with
  | .vnil => .error (.sourceNil .fSimpleToString)
  | .time t =>
    match doTimeToString cfg t with
    | .ok res => .ok res
    | .error e => .error (.forFn .fSimpleToString e)
  | .prim p => .ok (primToString p)
  | _ => .error (.forFn .fSimpleToString .cantConvert)

/-- `Conv.StringToSlice` (elements converted with `SimpleToSimple`). -/
def stringToSliceElems (cfg : GoConfig) (elemTyp : GoType) :
    List String → Nat → Except GoErr (List GoValue)
  | [], _ => .ok []
  | s :: rest, i =>
    match simpleToSimple cfg (.prim (.ps s)) elemTyp with
    | .error e => .error (.forFn .fStringToSlice (.atIndex i e))
    | .ok v => (stringToSliceElems cfg elemTyp rest (i + 1)).map (v :: ·)

def stringToSlice (cfg : GoConfig) (v : String) (dstTy : GoType) :
    Except GoErr GoValue :=
  match dstTy with
  | .slice elemTyp =>
    if !isSimpleType elemTyp then .error (.invalidArg .fStringToSlice)
    else
      (stringToSliceElems cfg elemTyp (doSplitString cfg v) 0).map
        (fun es => .slice elemTyp (some es))
  | _ => .error (.invalidArg .fStringToSlice)

/-! ## field_matcher.go: simpleMatcher with the default (zero) config

With a zero `SimpleMatcherConfig` there is no tag and `fixName` is the
identity, so `initFieldMap` indexes the exported top-level fields by their
raw names, first match winning.  `typ.NumField()` enumerates declared
fields; `time.Time` declares only unexported fields, and kinds other than
struct never reach the matcher (callers check the kind first). -/

/-- Declared fields of a struct-kind type, as `(name, exported, anonymous,
type)`.  `time.Time`'s fields (wall, ext, loc) are all unexported and are
represented by the empty list since only exported fields are ever used. -/
def declaredFields : GoType → List (String × Bool × Bool × GoType)
  | .strct _ fs => fs
  | _ => []

/-- A matched field: Go name, index path, declared type
(`reflect.StructField` restricted to what the engine reads). -/
structure MField : Type where
  name : String
  index : List Nat
  fty : GoType

/-- `simpleMatcher.initFieldMap` under the default config. -/
def initFieldMap (t : GoType) : List (String × MField) :=
  (declaredFields t).enum.foldl
    (fun acc fi =>
      let (nm, exported, _anon, fty) := fi.2
      if !exported then acc
      else if acc.any (fun e => e.1 == nm) then acc
      else acc ++ [(nm, ⟨nm, [fi.1], fty⟩)])
    []

/-- `simpleMatcher.MatchField` under the default config (exact names). -/
def matchField (t : GoType) (name : String) : Option MField :=
  match (initFieldMap t).find? (fun e => e.1 == name) with
  | some e => some e.2
  | none => none

/-! ## The field walker

`conv.go` only constructs walkers with an empty tag name
(`NewFieldWalker(typ, "")`), so the tagged-field pass of `initFields`
never collects anything and every `FieldInfo.TagValue` is empty; the
model fixes the tag name to "".  The breadth-first traversal is modelled
level by level: the source's FIFO queue processes all entries of one
embedding level before any entry they enqueue, which is exactly the
level-by-level order.  The level fuel is bounded by `sizeOf` of the type,
which exceeds the embedding depth. -/

/-- A walker entry: index path and the (pointer-stripped) struct type to
expand. -/
structure WQEnt : Type where
  index : List Nat
  ty : GoType

/-- Walker output: `FieldInfo` restricted to what `conv.go` reads
(`Name`, `Index`, `Type`; `TagValue` is always empty here). -/
structure WInfo : Type where
  name : String
  index : List Nat
  fty : GoType

/-- `reflect` pointer-type stripping (`for ft.Kind() == Ptr`). -/
def stripPtrType : GoType → GoType
  | .ptr t => stripPtrType t
  | t => t

mutual

/-- Structural depth of a type; bounds the embedding depth for the
breadth-first walk (Go types are finite trees: a struct cannot embed
itself by value). -/
def GoType.tyDepth : GoType → Nat
  | .ptr t => t.tyDepth + 1
  | .slice t => t.tyDepth + 1
  | .strct _ fs => fieldListDepth fs + 1
  | _ => 1

def fieldListDepth : List (String × Bool × Bool × GoType) → Nat
  | [] => 0
  | (_, _, _, t) :: rest => max t.tyDepth (fieldListDepth rest)

end

/-- One `traverseOne` step of `FieldWalker.initFields` (tag name empty):
collect exported, not-yet-visited fields; queue anonymous fields whose
stripped type has struct kind instead of emitting them. -/
def walkTraverseOne (ent : WQEnt) (visited : List String) :
    List WInfo × List WQEnt × List String :=
  (declaredFields ent.ty).enum.foldl
    (fun acc fi =>
      let (infos, q, vis) := acc
      let (nm, exported, anon, fty) := fi.2
      if !exported then acc
      else if vis.any (· == nm) then acc
      else
        let idx := ent.index ++ [fi.1]
        if anon && (stripPtrType fty).kind == .kStruct then
          (infos, q ++ [⟨idx, stripPtrType fty⟩], vis)
        else
          (infos ++ [⟨nm, idx, fty⟩], q, vis ++ [nm]))
    ([], [], visited)

def walkLevel : List WQEnt → List String → List WInfo × List WQEnt × List String
  | [], vis => ([], [], vis)
  | ent :: rest, vis =>
    let (infos, q, vis') := walkTraverseOne ent vis
    let (infos', q', vis'') := walkLevel rest vis'
    (infos ++ infos', q ++ q', vis'')

def walkLevels : Nat → List WQEnt → List String → List WInfo
  | 0, _, _ => []
  | _ + 1, [], _ => []
  | n + 1, q, vis =>
    let (infos, q', vis') := walkLevel q vis
    infos ++ walkLevels n q' vis'

/-- `FieldWalker.WalkFields` order: the full breadth-first field list of a
(possibly pointer-to-) struct type. -/
def walkFields (t : GoType) : List WInfo :=
  let t' := stripPtrType t
  walkLevels t'.tyDepth [⟨[], t'⟩] []

/-- Field extraction of `FieldWalker.WalkValues` for one `FieldInfo`:
follow the index path; on an embedded (`len(index) > 1`, untagged) path,
dereference pointers along the way and skip (`none`) when one is nil. -/
def fieldValueAt (embedded : Bool) : GoValue → List Nat → Option GoValue
  | v, [] => some v
  | v, i :: rest =>
    match v with
    | .strct _ vals =>
      match vals.get? i with
      | none => none
      | some fv =>
        if embedded then
          match getUnderlyingValue fv with
          | .vnil =>
            match fv with
            | .ptr _ _ => none
            | _ => fieldValueAt embedded fv rest
          | fv' =>
            match fv with
            | .ptr _ _ => fieldValueAt embedded fv' rest
            | _ => fieldValueAt embedded fv rest
        else fieldValueAt embedded fv rest
    | _ => none

/-- The initial pointer handling of `WalkValues`: dereference the walked
value itself, stopping (no callbacks) on nil. -/
def walkRootValue : GoValue → Option GoValue
  | .vnil => none
  | .ptr _ none => none
  | .ptr _ (some inner) => walkRootValue inner
  | v => some v

/-! ## conv.go: the conversion engine

The engine is mutually recursive in Go.  It is modelled with open
recursion: each dispatch function takes the recursive `ConvertType` as a
function argument `rec`, and `convertType` ties the knot with a fuel
parameter that decreases exactly once per `ConvertType` nesting level.
`GoErr.outOfFuel` is a model artifact that never occurs for sufficient
fuel.  The `StructToMap`/`convertToMapValue` recursion never re-enters
`ConvertType` (its map keys go through `Convert` on a string, which
reduces to `SimpleToSimple`), so it is tied with its own fuel, bounded by
the size of the value being folded. -/

/-- `ConvertType`'s recursive slot. -/
def RecFun : Type := GoValue → GoType → Except GoErr GoValue

/- Total node count of a value; used to pick a sufficient fuel for the
`StructToMap` fold. -/
mutual

def GoValue.vSize : GoValue → Nat
  | .vnil => 1
  | .prim _ => 1
  | .time _ => 1
  | .ptr _ v => 1 + vOptSize v
  | .slice _ es => 1 + vOptListSize es
  | .strMap es => 1 + vOptEntriesSize es
  | .strct _ vs => 1 + vListSize vs

def vOptSize : Option GoValue → Nat
  | none => 0
  | some v => v.vSize

def vListSize : List GoValue → Nat
  | [] => 0
  | v :: rest => v.vSize + vListSize rest

def vOptListSize : Option (List GoValue) → Nat
  | none => 0
  | some vs => vListSize vs

def vEntriesSize : List (String × GoValue) → Nat
  | [] => 0
  | (_, v) :: rest => v.vSize + vEntriesSize rest

def vOptEntriesSize : Option (List (String × GoValue)) → Nat
  | none => 0
  | some es => vEntriesSize es

end

/-- `SetMapIndex` on a `map[string]interface{}` model: `none` leaves the
map unchanged (an invalid `reflect.Value` does not set the key); map
"order" is association-list order (Go map iteration is unordered). -/
def mapSet (es : List (String × GoValue)) (k : String) :
    Option GoValue → List (String × GoValue)
  | none => es
  | some v =>
    if es.any (fun e => e.1 == k) then
      es.map (fun e => if e.1 == k then (k, v) else e)
    else es ++ [(k, v)]

/-- The custom-converter loop of `Conv.ConvertType`: each converter sees
`(src, dstTyp)`; an error stops with `converter[i]` wrapping, a non-nil
result stops with that result, `(nil, nil)` falls through. -/
def runConvertersFrom (src : GoValue) (dst : GoType) :
    List ConvFunc → Nat → Except GoErr (Option GoValue)
  | [], _ => .ok none
  | f :: rest, i =>
    match f src dst with
    | (_, some e) => .error (.forFn .fConvertType (.converterFail i e))
    | (some res, none) => .ok (some res)
    | (none, none) => runConvertersFrom src dst rest (i + 1)

/-- The custom-converter loop of `Conv.Convert`: like the one of
`ConvertType`, but the destination value is dereferenced one pointer
level per iteration before the converter is applied. -/
def runConvertersConvertFrom (src : GoValue) :
    GoType → List ConvFunc → Nat → Except GoErr (Option GoValue)
  | _, [], _ => .ok none
  | ty, f :: rest, i =>
    let ty' := match ty with | .ptr t => t | t => t
    match f src ty' with
    | (_, some e) => .error (.forFn .fConvert (.converterFail i e))
    | (some res, none) => .ok (some res)
    | (none, none) => runConvertersConvertFrom src ty' rest (i + 1)

/-- `Conv.determineSliceTypeForMapValue`. -/
def determineSliceTypeGo : GoType → Option GoType
  | .slice elemType =>
    if isSimpleType elemType then some (.slice elemType)
    else
      match elemType with
      | .strMap => some (.slice .strMap)
      | .strct _ _ => some (.slice .strMap)
      | .time => some (.slice .strMap)
      | .slice inner =>
        (determineSliceTypeGo (.slice inner)).map .slice
      | _ => none
  | _ => none

/-- The call `c.Convert(oldKey.Interface(), &newKey)` of
`convertToMapValue`, specialized to the only key type of
`map[string]interface{}`: the destination pointer is valid and non-nil,
the source string is non-nil, and `convertToNonPtr` of a string source
against the string type reduces to `SimpleToSimple`; only the custom
converters (which see the pointer-stripped string type, per `Convert`'s
converter loop) run first. -/
def convertKeyGo (cfg : GoConfig) (k : String) : Except GoErr GoValue :=
  match runConvertersConvertFrom (.prim (.ps k)) (.ptr (.prim .kString))
      cfg.customConverters 0 with
  | .error e => .error e
  | .ok (some res) => .ok res
  | .ok none =>
    match simpleToSimple cfg (.prim (.ps k)) (.prim .kString) with
    | .error e => .error (.forFn .fConvert e)
    | .ok v => .ok v

mutual

/-- `Conv.StructToMap` (fueled; `fuel` is a model artifact). -/
def structToMapGo (cfg : GoConfig) : Nat → GoValue → Except GoErr GoValue
  | 0, _ => .error .outOfFuel
  | fuel + 1, v =>
    match v with
    | .vnil => .error (.sourceNil .fStructToMap)
    | v =>
      if v.typeOf.kind != .kStruct then .error (.invalidArg .fStructToMap)
      else
        (structToMapFoldGo cfg fuel v (walkFields v.typeOf) []).map
          (fun es => .strMap (some es))

/-- The `walker.WalkValues` fold of `StructToMap`: extract each walked
field value (skipping nil embedded pointers), convert it with
`convertToMapValue`, and set the map entry unless the converted value is
the invalid value. -/
def structToMapFoldGo (cfg : GoConfig) :
    Nat → GoValue → List WInfo → List (String × GoValue) →
    Except GoErr (List (String × GoValue))
  | 0, _, _, _ => .error .outOfFuel
  | _ + 1, _, [], acc => .ok acc
  | fuel + 1, v, fi :: rest, acc =>
    match fieldValueAt (fi.index.length > 1) v fi.index with
    | none => structToMapFoldGo cfg fuel v rest acc
    | some fv =>
      match convertToMapValueGo cfg fuel fv with
      | .error e => .error (.forFn .fStructToMap (.fieldFail fi.name e))
      | .ok ff => structToMapFoldGo cfg fuel v rest (mapSet acc fi.name ff)

/-- `Conv.convertToMapValue`.  A `none` result is the invalid
`reflect.Value` (the map index will not be set).  The `Interface` case of
the source extracts the underlying value of an interface; model values
are already concrete, so it has no counterpart here. -/
def convertToMapValueGo (cfg : GoConfig) :
    Nat → GoValue → Except GoErr (Option GoValue)
  | 0, _ => .error .outOfFuel
  | fuel + 1, fv =>
    match getUnderlyingValue fv with
    | .vnil => .ok none
    | .time t =>
      -- kind Struct: `StructToMap` is invoked on the time value.
      (structToMapGo cfg fuel (.time t)).map some
    | .strct ty vs =>
      (structToMapGo cfg fuel (.strct ty vs)).map some
    | .slice elemTy none =>
      match determineSliceTypeGo (.slice elemTy) with
      | some (.slice d) => .ok (some (.slice d none))
      | _ => .error .cantConvert
    | .slice elemTy (some []) =>
      match determineSliceTypeGo (.slice elemTy) with
      | some (.slice d) => .ok (some (.slice d (some [])))
      | _ => .error .cantConvert
    | .slice _ (some (e0 :: es)) =>
      -- the destination slice type is taken from the first converted element
      match convertToMapValueListGo cfg fuel (e0 :: es) 0 with
      | .error e => .error e
      | .ok [] => .error .cantConvert
      | .ok (n0 :: ns) => .ok (some (.slice n0.typeOf (some (n0 :: ns))))
    | .strMap none => .ok (some (.strMap none))
    | .strMap (some es) =>
      (convertToMapValueEntriesGo cfg fuel es []).map
        (fun es' => some (.strMap (some es')))
    | .prim p =>
      match simpleToPrimitive cfg (.prim p) p.kind with
      | .error e => .error e
      | .ok res => .ok (some (.prim res))
    | .ptr _ _ => .ok none

/-- The non-empty-slice fold of `convertToMapValue`.  An element that
converts to the invalid value would make the Go code panic on `Append`;
this is outside the modelled fragment and mapped to an error. -/
def convertToMapValueListGo (cfg : GoConfig) :
    Nat → List GoValue → Nat → Except GoErr (List GoValue)
  | 0, _, _ => .error .outOfFuel
  | _ + 1, [], _ => .ok []
  | fuel + 1, e :: rest, i =>
    match convertToMapValueGo cfg fuel e with
    | .error err => .error (.atIndex i err)
    | .ok none => .error .cantConvert
    | .ok (some n) =>
      (convertToMapValueListGo cfg fuel rest (i + 1)).map (n :: ·)

/-- The map fold of `convertToMapValue`: keys go through `Convert` into a
string, values recurse. -/
def convertToMapValueEntriesGo (cfg : GoConfig) :
    Nat → List (String × GoValue) → List (String × GoValue) →
    Except GoErr (List (String × GoValue))
  | 0, _, _ => .error .outOfFuel
  | _ + 1, [], acc => .ok acc
  | fuel + 1, (k, v) :: rest, acc =>
    match convertKeyGo cfg k with
    | .error e => .error (.keyFail k e)
    | .ok nk =>
      match nk with
      | .prim (.ps ks) =>
        match convertToMapValueGo cfg fuel v with
        | .error e => .error (.valFail ks e)
        | .ok nv =>
          convertToMapValueEntriesGo cfg fuel rest (mapSet acc ks nv)
      | _ => .error .cantConvert

end

/-- `Conv.MapToMap` entry fold: keys and values are converted with
`ConvertType`; for a `map[string]interface{}` destination the key type is
string and the value type is the empty interface.  A converted key that
is not a string would make `SetMapIndex` panic; that is outside the
modelled fragment and mapped to an error. -/
def mapToMapEntriesF (cfg : GoConfig) (rec : RecFun) :
    List (String × GoValue) → List (String × GoValue) →
    Except GoErr (List (String × GoValue))
  | [], acc => .ok acc
  | (k, v) :: rest, acc =>
    match rec (.prim (.ps k)) (.prim .kString) with
    | .error e => .error (.forFn .fMapToMap (.keyFail k e))
    | .ok dstKey =>
      match rec v .iface with
      | .error e => .error (.forFn .fMapToMap (.valFail k e))
      | .ok dstVal =>
        match dstKey with
        | .prim (.ps ks) =>
          mapToMapEntriesF cfg rec rest (mapSet acc ks (some dstVal))
        | _ => .error .cantConvert

/-- `Conv.MapToMap`. -/
def mapToMapF (cfg : GoConfig) (rec : RecFun) (src : GoValue)
    (typ : GoType) : Except GoErr GoValue :=
  match src with
  | .strMap es =>
    match typ with
    | .strMap =>
      match es with
      | none => .ok (zeroValue typ)
      | some entries =>
        (mapToMapEntriesF cfg rec entries []).map (fun l => .strMap (some l))
    | _ => .error (.invalidArg .fMapToMap)
  | _ => .error (.invalidArg .fMapToMap)

/-- `Conv.MapToStruct` entry fold.  The default matcher indexes only
top-level fields, so every matched index path is a single step;
matched fields are exported and settable. -/
def mapToStructFields (cfg : GoConfig) (rec : RecFun) (dstTyp : GoType) :
    List (String × GoValue) → List GoValue → Except GoErr (List GoValue)
  | [], vals => .ok vals
  | (k, vm) :: rest, vals =>
    match matchField dstTyp k with
    | none => mapToStructFields cfg rec dstTyp rest vals
    | some f =>
      match f.index with
      | [i] =>
        match rec vm f.fty with
        | .error e => .error (.forFn .fMapToStruct (.fieldFail f.name e))
        | .ok vf => mapToStructFields cfg rec dstTyp rest (vals.set i vf)
      | _ => mapToStructFields cfg rec dstTyp rest vals

/-- `Conv.MapToStruct`.  A `time.Time` destination has struct kind and no
matchable fields, so it always comes back as the zero time. -/
def mapToStructF (cfg : GoConfig) (rec : RecFun)
    (m : Option (List (String × GoValue))) (dstTyp : GoType) :
    Except GoErr GoValue :=
  match m with
  | none => .error (.sourceNil .fMapToStruct)
  | some entries =>
    if dstTyp.kind != .kStruct then .error (.invalidArg .fMapToStruct)
    else
      match dstTyp with
      | .strct nm fs =>
        (mapToStructFields cfg rec dstTyp entries (zeroFieldVals fs)).map
          (.strct (.strct nm fs))
      | _ =>
        (mapToStructFields cfg rec dstTyp entries []).map
          (fun _ => zeroValue dstTyp)

/-- `Conv.SliceToSlice` element fold. -/
def sliceToSliceElemsF (cfg : GoConfig) (rec : RecFun) (dstElem : GoType) :
    List GoValue → Nat → Except GoErr (List GoValue)
  | [], _ => .ok []
  | e :: rest, i =>
    match rec e dstElem with
    | .error err => .error (.forFn .fSliceToSlice (.atIndex i err))
    | .ok v => (sliceToSliceElemsF cfg rec dstElem rest (i + 1)).map (v :: ·)

/-- `Conv.SliceToSlice`: a nil slice converts to a nil slice of the
destination type. -/
def sliceToSliceF (cfg : GoConfig) (rec : RecFun) (src : GoValue)
    (dstTyp : GoType) : Except GoErr GoValue :=
  match src with
  | .vnil => .error (.sourceNil .fSliceToSlice)
  | .slice _ es =>
    match dstTyp with
    | .slice dstElem =>
      match es with
      | none => .ok (zeroValue dstTyp)
      | some vs =>
        (sliceToSliceElemsF cfg rec dstElem vs 0).map
          (fun l => .slice dstElem (some l))
    | _ => .error (.invalidArg .fSliceToSlice)
  | _ => .error (.invalidArg .fSliceToSlice)

/-- `Conv.StructToStruct` walk fold: each walked source field value is
matched against the destination by name and converted with `ConvertType`. -/
def structToStructFold (cfg : GoConfig) (rec : RecFun) (dstTyp : GoType)
    (src : GoValue) :
    List WInfo → List GoValue → Except GoErr (List GoValue)
  | [], vals => .ok vals
  | fi :: rest, vals =>
    match fieldValueAt (fi.index.length > 1) src fi.index with
    | none => structToStructFold cfg rec dstTyp src rest vals
    | some fv =>
      match matchField dstTyp fi.name with
      | none => structToStructFold cfg rec dstTyp src rest vals
      | some f =>
        match f.index with
        | [i] =>
          match rec fv f.fty with
          | .error e => .error (.forFn .fStructToStruct (.fieldFail f.name e))
          | .ok dv => structToStructFold cfg rec dstTyp src rest (vals.set i dv)
        | _ => structToStructFold cfg rec dstTyp src rest vals

/-- `Conv.StructToStruct`. -/
def structToStructF (cfg : GoConfig) (rec : RecFun) (src : GoValue)
    (dstTyp : GoType) : Except GoErr GoValue :=
  match src with
  | .vnil => .error (.sourceNil .fStructToStruct)
  | src =>
    if dstTyp.kind != .kStruct then .error (.invalidArg .fStructToStruct)
    else if src.typeOf.kind != .kStruct then .error (.invalidArg .fStructToStruct)
    else
      match dstTyp with
      | .strct nm fs =>
        (structToStructFold cfg rec dstTyp src (walkFields src.typeOf)
            (zeroFieldVals fs)).map (.strct (.strct nm fs))
      | _ =>
        (structToStructFold cfg rec dstTyp src (walkFields src.typeOf) []).map
          (fun _ => zeroValue dstTyp)

/-- `Conv.convertToNonPtr`: dereference the source, handle nil, then
dispatch on the (source kind, destination kind) pair.  The
`map[string]interface{}` type assertion of the map-to-struct path always
succeeds (it is the only modelled map type), and `typStringMap` is the
only map destination. -/
def convertToNonPtrF (cfg : GoConfig) (rec : RecFun) (src : GoValue)
    (dstTyp : GoType) : Except GoErr GoValue :=
  match getUnderlyingValue src with
  | .vnil =>
    if dstTyp.kind == .kSlice || dstTyp.kind == .kMap then .ok (zeroValue dstTyp)
    else .error .cantConvertNil
  | src' =>
    let srcTyp := src'.typeOf
    if isSimpleType srcTyp && isSimpleType dstTyp then
      simpleToSimple cfg src' dstTyp
    else if srcTyp.kind == .kMap then
      match tryFlattenEmptyKeyMap src' with
      | some uv => rec uv dstTyp
      | none =>
        match dstTyp.kind, src' with
        | .kMap, _ => mapToMapF cfg rec src' dstTyp
        | .kStruct, .strMap es => mapToStructF cfg rec es dstTyp
        | _, _ => .error .cantConvert
    else if srcTyp.kind == .kStruct then
      match dstTyp.kind with
      | .kMap =>
        match dstTyp with
        | .strMap => structToMapGo cfg (8 * src'.vSize + 8) src'
        | _ => .error .cantConvert
      | .kStruct => structToStructF cfg rec src' dstTyp
      | _ => .error .cantConvert
    else if dstTyp.kind == .kSlice then
      match src' with
      | .prim (.ps s) => stringToSlice cfg s dstTyp
      | .slice _ _ => sliceToSliceF cfg rec src' dstTyp
      | _ => .error .cantConvert
    else .error .cantConvert

/-- One unfolding of `Conv.ConvertType`: the empty-interface shortcut, the
nil-to-nil-pointer rule, the custom converters, pointer-depth stripping,
`convertToNonPtr`, and pointer re-wrapping. -/
def convertTypeF (cfg : GoConfig) (rec : RecFun) (src : GoValue)
    (dstTyp : GoType) : Except GoErr GoValue :=
  if dstTyp.isIfaceT then .ok src
  else if src.isNilIface && dstTyp.isPtrT then .ok (zeroValue dstTyp)
  else
    match runConvertersFrom src dstTyp cfg.customConverters 0 with
    | .error e => .error e
    | .ok (some res) => .ok res
    | .ok none =>
      match convertToNonPtrF cfg rec src (stripPtrDepth dstTyp).2 with
      | .error e => .error (.forFn .fConvertType e)
      | .ok v => .ok (wrapPtrs (stripPtrDepth dstTyp).1 v)

/-- `Conv.ConvertType`, with fuel for the recursion depth. -/
def convertType (cfg : GoConfig) : Nat → GoValue → GoType →
    Except GoErr GoValue
  | 0, _, _ => .error .outOfFuel
  | n + 1, src, dstTyp => convertTypeF cfg (convertType cfg n) src dstTyp

/-- The observable outcome of `Conv.Convert`: a panic (a fatal
precondition fault) or a returned `error` value (`none` for success). -/
inductive ConvOutcome : Type
  | panicked (e : GoErr)
  | returned (res : Option GoErr)
deriving DecidableEq, Repr

/-- The dereference loop of `Conv.Convert`: `Elem()` of a nil pointer is
the invalid value, which the source turns into a panic (`none` here). -/
def convertDeref : GoValue → Option GoValue
  | .ptr _ none => none
  | .ptr _ (some inner) => convertDeref inner
  | v => some v

/-- `Conv.Convert`.  Precondition faults are panics, not errors: a
non-pointer destination, a nil top-level pointer, and (after the nil
source early return and the custom converters) a nil pointer further
along the chain.  Writes through the pointer are not modelled; only the
outcome is.  A custom converter returning a result makes `Convert` set it
and return nil. -/
def goConvert (cfg : GoConfig) (n : Nat) (src : GoValue)
    (dstPtr : GoValue) : ConvOutcome :=
  if dstPtr.kind != .kPtr then .panicked (.forFn .fConvert .mustBePointer)
  else if dstPtr.isNilPtr then .panicked (.forFn .fConvert .ptrMustInit)
  else if src.isNilIface then .returned none
  else
    match runConvertersConvertFrom src dstPtr.typeOf cfg.customConverters 0 with
    | .error e => .returned (some e)
    | .ok (some _res) => .returned none
    | .ok none =>
      match convertDeref dstPtr with
      | none => .panicked (.forFn .fConvert .underlyingMustInit)
      | some terminal =>
        match convertToNonPtrF cfg (convertType cfg n) src terminal.typeOf with
        | .error e => .returned (some (.forFn .fConvert e))
        | .ok _v => .returned none

/-- The `Bool` shortcut: `defaultConv.SimpleToBool(v)`. -/
def goBool (v : GoValue) : Except GoErr Bool := simpleToBool defaultConfig v

/-! ## Rendering (debug display of model values) -/

mutual

def GoType.render : GoType → String
  | .prim k => reprStr k
  | .time => "time.Time"
  | .iface => "interface"
  | .ptr t => "*" ++ t.render
  | .slice t => "[]" ++ t.render
  | .strMap => "map[string]interface"
  | .strct nm fs => "struct " ++ nm ++ "\x7b" ++ renderFieldTys fs ++ "\x7d"

def renderFieldTys : List (String × Bool × Bool × GoType) → String
  | [] => ""
  | (nm, _, _, t) :: rest => nm ++ ":" ++ t.render ++ ";" ++ renderFieldTys rest

end

mutual

def GoValue.render : GoValue → String
  | .vnil => "nil"
  | .prim p => reprStr p
  | .time t => "time(" ++ reprStr t ++ ")"
  | .ptr t v => "ptr[" ++ t.render ++ "](" ++ renderOpt v ++ ")"
  | .slice t es => "slice[" ++ t.render ++ "](" ++ renderOptList es ++ ")"
  | .strMap es => "map(" ++ renderOptEntries es ++ ")"
  | .strct ty vs => "strct[" ++ ty.render ++ "](" ++ renderList vs ++ ")"

def renderOpt : Option GoValue → String
  | none => "nil"
  | some v => v.render

def renderList : List GoValue → String
  | [] => ""
  | v :: rest => v.render ++ ", " ++ renderList rest

def renderOptList : Option (List GoValue) → String
  | none => "nil"
  | some vs => renderList vs

def renderEntries : List (String × GoValue) → String
  | [] => ""
  | (k, v) :: rest => k ++ " => " ++ v.render ++ ", " ++ renderEntries rest

def renderOptEntries : Option (List (String × GoValue)) → String
  | none => "nil"
  | some es => renderEntries es

end

def renderRes : Except GoErr GoValue → String
  | .ok v => "ok: " ++ v.render
  | .error e => "error: " ++ reprStr e

/-! ## field_matcher.go: the camel/snake-case name policy

`simpleMatcher.fixName` with `CamelSnakeCase` set (and `CaseInsensitive`
and `OmitUnderscore` unset) canonicalizes a name with
`fixCamelSnakeCaseName`; `simpleMatcher.MatchField` canonicalizes the
queried name the same way and looks it up among the canonicalized field
names, so under this policy two names match exactly when their canonical
forms are equal. -/

/-- The scan state of `simpleMatcher.fixCamelSnakeCaseName`. -/
inductive CamelState : Type
  | sWordStart
  | sDelimiter
  | sNonDelimiter
deriving DecidableEq, Repr

/-- The loop of `simpleMatcher.fixCamelSnakeCaseName`: `first` stands for
`i == 0`, and the `i < len(name)-1` lookahead is "the rest is non-empty".
A word-start rune (the first rune, an upper-case rune, or the rune after
a consumed delimiter underscore) is written as `'_'` plus its lower-case
form; an interior single underscore after a word-start or non-delimiter
rune is consumed and turns the next rune into a word start; a trailing
underscore is written as itself. -/
def fixCamelSnakeLoop : List Char → Bool → CamelState → String → String
  | [], _, _, acc => acc
  | c :: rest, first, state, acc =>
    if first || c.isUpper then
      fixCamelSnakeLoop rest false .sWordStart ((acc.push '_').push c.toLower)
    else if state == .sDelimiter then
      fixCamelSnakeLoop rest false .sWordStart ((acc.push '_').push c.toLower)
    else if c != '_' then
      fixCamelSnakeLoop rest false .sNonDelimiter (acc.push c)
    else if !rest.isEmpty then
      fixCamelSnakeLoop rest false .sDelimiter acc
    else
      fixCamelSnakeLoop rest false .sNonDelimiter (acc.push c)

/-- `simpleMatcher.fixCamelSnakeCaseName`. -/
def fixCamelSnakeCaseName (name : String) : String :=
  fixCamelSnakeLoop name.toList true .sWordStart emptyString

/-- `simpleMatcher.MatchField` under the camel/snake-case policy: the
queried name matches a field name when their canonical forms are equal. -/
def camelSnakeMatch (a b : String) : Bool :=
  fixCamelSnakeCaseName a == fixCamelSnakeCaseName b

/-! ## Well-formedness of primitive values

A Go value of a sized integer kind always lies in its kind's range; the
model does not bake that into the type, so theorems about round trips
assume it. -/

/-- The value range of a signed integer kind (`int` at 64 bits). -/
def sintFits : SIntK → Int → Prop
  | .iInt, n => -(2 ^ 63) ≤ n ∧ n ≤ 2 ^ 63 - 1
  | .i8, n => -(2 ^ 7) ≤ n ∧ n ≤ 2 ^ 7 - 1
  | .i16, n => -(2 ^ 15) ≤ n ∧ n ≤ 2 ^ 15 - 1
  | .i32, n => -(2 ^ 31) ≤ n ∧ n ≤ 2 ^ 31 - 1
  | .i64, n => -(2 ^ 63) ≤ n ∧ n ≤ 2 ^ 63 - 1

/-- The value range of an unsigned integer kind (`uint` at 64 bits). -/
def uintFits : UIntK → Int → Prop
  | .uInt, n => 0 ≤ n ∧ n ≤ 2 ^ 64 - 1
  | .u8, n => 0 ≤ n ∧ n ≤ 2 ^ 8 - 1
  | .u16, n => 0 ≤ n ∧ n ≤ 2 ^ 16 - 1
  | .u32, n => 0 ≤ n ∧ n ≤ 2 ^ 32 - 1
  | .u64, n => 0 ≤ n ∧ n ≤ 2 ^ 64 - 1

/-- Well-formedness of a primitive value: integers fit their kind's range
and a float32 value fits the float32 range. -/
def primWF : Prim → Prop
  | .pi k n => sintFits k n
  | .pu k n => uintFits k n
  | .pf .f32 q => -maxFloat32Q ≤ q ∧ q ≤ maxFloat32Q
  | _ => True

/-- A well-formed simple value: a well-formed primitive or a time. -/
def simpleWF : GoValue → Prop
  | .prim p => primWF p
  | .time _ => True
  | _ => False

instance : ∀ k n, Decidable (sintFits k n) := fun k n => by
  cases k <;> simp only [sintFits] <;> infer_instance

instance : ∀ k n, Decidable (uintFits k n) := fun k n => by
  cases k <;> simp only [uintFits] <;> infer_instance

instance : ∀ p, Decidable (primWF p) := fun p => by
  cases p with
  | pf k q => cases k <;> (simp only [primWF]; infer_instance)
  | _ => (simp only [primWF]; infer_instance)

instance : ∀ v, Decidable (simpleWF v) := fun v => by
  cases v <;> simp only [simpleWF] <;> infer_instance

/-- Exact representability as a finite IEEE-754 float64: `m * 2^e` with
`|m| < 2^53`.  Every finite float64 value has this form. -/
def float64Repr (q : ℚ) : Prop :=
  ∃ m e : Int, m.natAbs < 2 ^ 53 ∧ q = (m : ℚ) * (2 : ℚ) ^ e

/-- A nil pointer somewhere in a pointer chain. -/
def hasNilInChain : GoValue → Bool
  | .ptr _ none => true
  | .ptr _ (some inner) => hasNilInChain inner
  | _ => false

/-- `d` pointer layers over a base type. -/
def ptrN : Nat → GoType → GoType
  | 0, t => t
  | d + 1, t => .ptr (ptrN d t)

/-! ## Concrete values used by the claim theorems -/

def tyIntGo : GoType := .prim .kInt

def intV (n : Int) : GoValue := .prim (.pi .iInt n)

/-- `struct S { T time.Time; I int }`. -/
def c1RecordTy : GoType :=
  .strct (r"S") [((r"T"), true, false, .time), ((r"I"), true, false, tyIntGo)]

/-- `S{T: time.Unix(1000, 0), I: 7}` (a local-zone time, as `time.Unix`
returns). -/
def c1Record : GoValue := .strct c1RecordTy [.time ⟨1000, 0, .local⟩, intV 7]

/-- What the round trip actually produces: the time field reset to the
zero `time.Time`. -/
def c1RecordZeroTime : GoValue := .strct c1RecordTy [.time goZeroTime, intV 7]

/-- `map[string]interface{}{"": 123}`. -/
def emptyKeyMap123 : GoValue := .strMap (some [(emptyString, intV 123)])

/-- A zero `Config` with only custom converters set. -/
def cfgWithConverters (cs : List ConvFunc) : GoConfig := ⟨none, cs, none, none⟩

/-- A custom converter with no opinion on any input. -/
def convNoop : ConvFunc := fun _ _ => (none, none)

/-- A custom converter that always returns `7`. -/
def convTo7 : ConvFunc := fun _ _ => (some (intV 7), none)

/-- A custom converter that always fails. -/
def convFail : ConvFunc := fun _ _ => (none, some .cantConvert)

/-! ## Helper lemmas -/

theorem isNilIface_false_of_ne {v : GoValue} (h : v ≠ .vnil) :
    v.isNilIface = false := by
  cases v <;> first | rfl | exact absurd rfl h

theorem isIfaceT_false_of_ne {t : GoType} (h : t ≠ .iface) :
    t.isIfaceT = false := by
  cases t <;> first | rfl | exact absurd rfl h

theorem stripPtrDepth_snd_not_ptr : ∀ t : GoType, (stripPtrDepth t).2.isPtrT = false
  | .ptr t => by simpa [stripPtrDepth] using stripPtrDepth_snd_not_ptr t
  | .prim _ => rfl
  | .time => rfl
  | .iface => rfl
  | .slice _ => rfl
  | .strMap => rfl
  | .strct _ _ => rfl

theorem stripPtrDepth_of_not_ptr {t : GoType} (h : t.isPtrT = false) :
    stripPtrDepth t = (0, t) := by
  cases t <;> first | rfl | exact absurd h (by simp [GoType.isPtrT])

theorem isIfaceT_false_of_strip {t : GoType}
    (h : (stripPtrDepth t).2 ≠ .iface) : t.isIfaceT = false := by
  cases t <;> first | rfl | exact (h rfl).elim

theorem tryFlatten_single {v : GoValue} (hv : v ≠ .vnil) :
    tryFlattenEmptyKeyMap (.strMap (some [(emptyString, v)])) = some v := by
  cases v <;> first
    | rfl
    | exact absurd rfl hv

theorem isPrimitiveKind_primKind (p : Prim) : isPrimitiveKind p.kind = true := by
  cases p with
  | pb _ => rfl
  | ps _ => rfl
  | pi k _ => cases k <;> rfl
  | pu k _ => cases k <;> rfl
  | pf k _ => cases k <;> rfl
  | pc k _ _ => cases k <;> rfl

/-- Converting a well-formed primitive to its own kind is the identity. -/
theorem toPrimitive_self (p : Prim) (h : primWF p) :
    toPrimitive p p.kind = .ok p := by
  cases p with
  | pb b => rfl
  | ps s => rfl
  | pi k n =>
    cases k with
    | iInt =>
      obtain ⟨h1, h2⟩ := h
      have hc : ¬ (n < minIntV ∨ n > maxIntV) := by
        simp only [minIntV, maxIntV, minInt64, maxInt64] at *
        omega
      simp [toPrimitive, Prim.kind, toIntP, doPrimitiveToInt64, hc]
    | i8 =>
      obtain ⟨h1, h2⟩ := h
      have hc : ¬ (n < -(2 : Int) ^ 7 ∨ n > 2 ^ 7 - 1) := by omega
      simp [toPrimitive, Prim.kind, toInt8P, doPrimitiveToInt64, hc]
      omega
    | i16 =>
      obtain ⟨h1, h2⟩ := h
      have hc : ¬ (n < -(2 : Int) ^ 15 ∨ n > 2 ^ 15 - 1) := by omega
      simp [toPrimitive, Prim.kind, toInt16P, doPrimitiveToInt64, hc]
      omega
    | i32 =>
      obtain ⟨h1, h2⟩ := h
      have hc : ¬ (n < -(2 : Int) ^ 31 ∨ n > 2 ^ 31 - 1) := by omega
      simp [toPrimitive, Prim.kind, toInt32P, doPrimitiveToInt64, hc]
      omega
    | i64 => rfl
  | pu k n =>
    cases k with
    | uInt =>
      obtain ⟨h1, h2⟩ := h
      have hc : ¬ (n > maxUintV) := by
        simp only [maxUintV, maxUint64] at *
        omega
      simp [toPrimitive, Prim.kind, toUintP, doPrimitiveToUint64, hc]
    | u8 =>
      obtain ⟨h1, h2⟩ := h
      have hc : ¬ (n > (2 : Int) ^ 8 - 1) := by omega
      simp [toPrimitive, Prim.kind, toUint8P, doPrimitiveToUint64, hc]
      omega
    | u16 =>
      obtain ⟨h1, h2⟩ := h
      have hc : ¬ (n > (2 : Int) ^ 16 - 1) := by omega
      simp [toPrimitive, Prim.kind, toUint16P, doPrimitiveToUint64, hc]
      omega
    | u32 =>
      obtain ⟨h1, h2⟩ := h
      have hc : ¬ (n > (2 : Int) ^ 32 - 1) := by omega
      simp [toPrimitive, Prim.kind, toUint32P, doPrimitiveToUint64, hc]
      omega
    | u64 => rfl
  | pf k q =>
    cases k with
    | f64 => rfl
    | f32 =>
      obtain ⟨h1, h2⟩ := h
      have hc : ¬ (q < -maxFloat32Q ∨ q > maxFloat32Q) := by
        simp only [not_or, not_lt]
        exact ⟨h1, h2⟩
      simp [toPrimitive, Prim.kind, toFloat32P, doPrimitiveToFloat64, hc]
  | pc k a b => cases k <;> rfl

/-- `SimpleToSimple` of a well-formed simple value to its own type is the
identity. -/
theorem simpleToSimple_self (v : GoValue) (h : simpleWF v) :
    simpleToSimple defaultConfig v v.typeOf = .ok v := by
  cases v with
  | prim p =>
    have hk := isPrimitiveKind_primKind p
    have hp := toPrimitive_self p h
    simp [simpleToSimple, GoValue.typeOf, GoType.kind, hk, simpleToPrimitive, hp]
  | time t => rfl
  | vnil => exact absurd h (by simp [simpleWF])
  | ptr _ _ => exact absurd h (by simp [simpleWF])
  | slice _ _ => exact absurd h (by simp [simpleWF])
  | strMap _ => exact absurd h (by simp [simpleWF])
  | strct _ _ => exact absurd h (by simp [simpleWF])

theorem stripPtrDepth_ptrN {T : GoType} (hT : T.isPtrT = false) (d : Nat) :
    stripPtrDepth (ptrN d T) = (d, T) := by
  induction d with
  | zero => exact stripPtrDepth_of_not_ptr hT
  | succ d ih => simp [ptrN, stripPtrDepth, ih]

theorem typeOf_simple_not_ptr {v : GoValue} (h : simpleWF v) :
    v.typeOf.isPtrT = false := by
  cases v <;> first | rfl | exact absurd h (by simp [simpleWF])

theorem typeOf_simple_ne_iface {v : GoValue} (h : simpleWF v) :
    v.typeOf ≠ .iface := by
  cases v with
  | prim p => simp [GoValue.typeOf]
  | time _ => simp [GoValue.typeOf]
  | _ => exact absurd h (by simp [simpleWF])

theorem wrapPtrs_ne_vnil {v : GoValue} (h : simpleWF v) (d : Nat) :
    wrapPtrs d v ≠ .vnil := by
  cases d with
  | zero =>
    cases v with
    | vnil => exact absurd h (by simp [simpleWF])
    | prim p => simp [wrapPtrs]
    | time t => simp [wrapPtrs]
    | ptr a b => simp [wrapPtrs]
    | slice a b => simp [wrapPtrs]
    | strMap a => simp [wrapPtrs]
    | strct a b => simp [wrapPtrs]
  | succ d => simp [wrapPtrs]

theorem getUnderlyingValue_wrapPtrs {v : GoValue} (h : simpleWF v) (d : Nat) :
    getUnderlyingValue (wrapPtrs d v) = v := by
  induction d with
  | zero =>
    cases v with
    | ptr a b => exact absurd h (by simp [simpleWF])
    | vnil => rfl
    | prim p => rfl
    | time t => rfl
    | slice a b => rfl
    | strMap a => rfl
    | strct a b => rfl
  | succ d ih => simpa [wrapPtrs, getUnderlyingValue] using ih

theorem isSimpleType_typeOf {v : GoValue} (h : simpleWF v) :
    isSimpleType v.typeOf = true := by
  cases v with
  | prim p =>
    have hk := isPrimitiveKind_primKind p
    simp [GoValue.typeOf, isSimpleType, isPrimitiveType, GoType.kind, hk]
  | time _ => rfl
  | _ => exact absurd h (by simp [simpleWF])

/-- `convertToNonPtr` on a source whose underlying value is a well-formed
simple value, against that value's own type, is the identity (the
simple-to-simple branch after pointer dereferencing). -/
theorem convertToNonPtrF_underlying_simple (rec : RecFun) (src v : GoValue)
    (hu : getUnderlyingValue src = v) (h : simpleWF v) :
    convertToNonPtrF defaultConfig rec src v.typeOf = .ok v := by
  have hself := simpleToSimple_self v h
  cases v with
  | prim p =>
    have hk := isPrimitiveKind_primKind p
    simpa [convertToNonPtrF, hu, GoValue.typeOf, isSimpleType,
      isPrimitiveType, GoType.kind, hk] using hself
  | time t =>
    simpa [convertToNonPtrF, hu] using hself
  | vnil => exact absurd h (by simp [simpleWF])
  | ptr a b => exact absurd h (by simp [simpleWF])
  | slice a b => exact absurd h (by simp [simpleWF])
  | strMap a => exact absurd h (by simp [simpleWF])
  | strct a b => exact absurd h (by simp [simpleWF])

theorem getUnderlyingValue_simple {v : GoValue} (h : simpleWF v) :
    getUnderlyingValue v = v := by
  cases v with
  | ptr a b => exact absurd h (by simp [simpleWF])
  | vnil => rfl
  | prim p => rfl
  | time t => rfl
  | slice a b => rfl
  | strMap a => rfl
  | strct a b => rfl

/-! ## Claim theorems -/

/-- C9: converting a time value to a time destination goes through
`SimpleToSimple`/`simpleToTime` and copies the value verbatim — seconds,
nanoseconds and zone — with no normalization. -/
theorem c9_time_to_time_verbatim (t : GoTime) (n : Nat) :
    convertType defaultConfig (n + 1) (.time t) .time = .ok (.time t) := rfl

/-- C10: `SimpleToBool` (and the `Bool` shortcut) maps a nil source to
`false` with no error, while `SimpleToString` and `SimpleToSimple` reject
a nil source with the "source should not be nil" error. -/
theorem c10_nil_to_bool_false :
    goBool .vnil = .ok false ∧
    simpleToBool defaultConfig .vnil = .ok false ∧
    simpleToString defaultConfig .vnil = .error (.sourceNil .fSimpleToString) ∧
    ∀ dst : GoType,
      simpleToSimple defaultConfig .vnil dst = .error (.sourceNil .fSimpleToSimple) :=
  ⟨rfl, rfl, rfl, fun _ => rfl⟩

/-- C8 counterexample: `"a b"` contains a whitespace rune and differs
from `"A b"` as a string, yet both canonicalize to `"_a b"` and the
camel/snake-case policy matches them: `fixCamelSnakeCaseName` gives
whitespace no special treatment, so there is no fallback to exact string
equality. -/
theorem c8_whitespace_counterexample :
    ((r"a b").toList.any Char.isWhitespace) = true ∧
    camelSnakeMatch (r"a b") (r"A b") = true ∧
    (r"a b") ≠ (r"A b") := by
  refine ⟨rfl, rfl, by decide⟩

/-- C8 (amended): the camel/snake-case field-matching policy has no
whitespace fallback: two names match exactly when their
`fixCamelSnakeCaseName` canonical forms are equal, whatever runes they
contain; in particular every name matches itself.  The canonicalization
reproduces the examples documented on the source function
(`aaBB → _aa_b_b`, `AaBb → _aa_bb`, `_a_b_ → __a_b_`), matches
`AaBb`/`aa_bb`/`Aa_Bb` and `aaBB`/`aa_BB` while separating the
documented non-equal pairs, and treats a whitespace rune like any other
word-interior rune, so `"a b"` and `"A b"` both canonicalize to
`"_a b"`. -/
theorem c8_camel_snake_canonical_match :
    (∀ a b : String, camelSnakeMatch a b = true ↔
      fixCamelSnakeCaseName a = fixCamelSnakeCaseName b) ∧
    (∀ a : String, camelSnakeMatch a a = true) ∧
    fixCamelSnakeCaseName (r"aaBB") = (r"_aa_b_b") ∧
    fixCamelSnakeCaseName (r"AaBb") = (r"_aa_bb") ∧
    fixCamelSnakeCaseName (r"_a_b_") = (r"__a_b_") ∧
    camelSnakeMatch (r"AaBb") (r"aa_bb") = true ∧
    camelSnakeMatch (r"aa_bb") (r"Aa_Bb") = true ∧
    camelSnakeMatch (r"aaBB") (r"aa_BB") = true ∧
    camelSnakeMatch (r"aa_bb") (r"Aabb") = false ∧
    camelSnakeMatch (r"aaBB") (r"aabB") = false ∧
    camelSnakeMatch (r"AaBb") (r"_aaBb") = false ∧
    camelSnakeMatch (r"AaBb") (r"AaBb_") = false ∧
    camelSnakeMatch (r"Aa_Bb") (r"Aa__Bb") = false ∧
    fixCamelSnakeCaseName (r"a b") = (r"_a b") ∧
    fixCamelSnakeCaseName (r"A b") = (r"_a b") := by
  refine ⟨fun a b => ?_, fun a => ?_, rfl, rfl, rfl, rfl, rfl, rfl, rfl,
    rfl, rfl, rfl, rfl, rfl, rfl⟩
  · simp [camelSnakeMatch]
  · simp [camelSnakeMatch]

/-- C3: converting an integer value (any signed or unsigned kind) to
`int8` succeeds with the same numeric value exactly when the value lies
in [-128, 127], and fails with the `Overflow` error otherwise. -/
theorem c3_int8_range :
    (∀ (k : SIntK) (n : Int), sintFits k n →
      ((-128 ≤ n ∧ n ≤ 127) → toInt8P (.pi k n) = .ok (.pi .i8 n)) ∧
      ((n < -128 ∨ 127 < n) → toInt8P (.pi k n) = .error (.overflow .kInt8))) ∧
    (∀ (k : UIntK) (n : Int), uintFits k n →
      ((-128 ≤ n ∧ n ≤ 127) → toInt8P (.pu k n) = .ok (.pi .i8 n)) ∧
      ((n < -128 ∨ 127 < n) → toInt8P (.pu k n) = .error (.overflow .kInt8))) := by
  constructor
  · intro k n _hWF
    constructor
    · intro hin
      have hc : ¬ (n < -(2 : Int) ^ 7 ∨ n > 2 ^ 7 - 1) := by omega
      simp [toInt8P, doPrimitiveToInt64, hc]
      omega
    · intro hout
      have hc : n < -(2 : Int) ^ 7 ∨ n > 2 ^ 7 - 1 := by omega
      simp [toInt8P, doPrimitiveToInt64, hc]
      omega
  · intro k n _hWF
    constructor
    · intro hin
      have hle : ¬ n > maxInt64 := by
        simp only [maxInt64]; omega
      have hc : ¬ (n < -(2 : Int) ^ 7 ∨ n > 2 ^ 7 - 1) := by omega
      simp [toInt8P, doPrimitiveToInt64, hle, hc]
      omega
    · intro hout
      by_cases hbig : n > maxInt64
      · simp [toInt8P, doPrimitiveToInt64, hbig]
      · have hc : n < -(2 : Int) ^ 7 ∨ n > 2 ^ 7 - 1 := by omega
        simp [toInt8P, doPrimitiveToInt64, hbig, hc]
        omega

theorem c3_int8_range_witness :
    toInt8P (.pi .iInt 127) = .ok (.pi .i8 127) ∧
      toInt8P (.pi .iInt 1000) = .error (.overflow .kInt8) :=
  ⟨((c3_int8_range.1 .iInt 127 (by decide)).1 (by decide)),
   ((c3_int8_range.1 .iInt 1000 (by decide)).2 (by decide))⟩

/-- C1 (code bug): the record→map→record round trip destroys `time.Time`
fields.  `convertToMapValue` dispatches on `reflect.Kind` and sends every
Struct-kind value — including `time.Time` — into `StructToMap`, whose
walker finds no exported fields, so a time field becomes an empty map;
converting back then yields the zero time.  This contradicts
`StructToMap`'s own documentation ("Simple types … the value will be
cloned into the map directly") and the spec's round-trip property.  The
record `S{T: time.Unix(1000,0), I: 7}` comes back with `T` reset to the
zero time. -/
theorem c1_record_map_record_roundtrip_time_bug :
    convertType defaultConfig 10 c1Record .strMap
      = .ok (.strMap (some [((r"T"), .strMap (some [])), ((r"I"), intV 7)])) ∧
    (convertType defaultConfig 10 c1Record .strMap).bind
      (fun m => convertType defaultConfig 10 m c1RecordTy)
      = .ok c1RecordZeroTime ∧
    c1RecordZeroTime ≠ c1Record := by
  refine ⟨rfl, rfl, ?_⟩
  simp [c1RecordZeroTime, c1Record, goZeroTime]

/-- C7 counterexample: the claim quantifies over every source value, but
for the single-empty-key map `map[string]interface{}{"": 123}` the very
first conversion (depth 0 over the value's own type) already fails: the
flattening contract recurses on `123` against the map type, which has no
rule.  So the round trip does not yield the original value. -/
theorem c7_pointer_depth_roundtrip_counterexample :
    (convertType defaultConfig 6 emptyKeyMap123 (ptrN 0 (GoValue.typeOf emptyKeyMap123))).bind
      (fun r => convertType defaultConfig 6 r (GoValue.typeOf emptyKeyMap123))
      = .error (.forFn .fConvertType (.forFn .fConvertType .cantConvert)) ∧
    (Except.error (GoErr.forFn .fConvertType (.forFn .fConvertType .cantConvert))
        : Except GoErr GoValue) ≠ .ok emptyKeyMap123 :=
  ⟨rfl, fun hh => Except.noConfusion hh⟩

/-- C7 (amended): for every well-formed value of a simple (primitive or
time) type, converting to a destination with `d` pointer layers over the
value's own type and converting the result back to the base type yields
the original value, for every `d` (covering d ∈ {0,1,2,3}). -/
theorem c7_pointer_depth_roundtrip (v : GoValue) (h : simpleWF v)
    (d n m : Nat) :
    (convertType defaultConfig (n + 1) v (ptrN d v.typeOf)).bind
      (fun r => convertType defaultConfig (m + 1) r v.typeOf) = .ok v := by
  have hne : v ≠ .vnil := by
    intro e
    rw [e] at h
    exact absurd h (by simp [simpleWF])
  have hTptr : v.typeOf.isPtrT = false := typeOf_simple_not_ptr h
  have hTiface : v.typeOf ≠ .iface := typeOf_simple_ne_iface h
  have hstrip : stripPtrDepth (ptrN d v.typeOf) = (d, v.typeOf) :=
    stripPtrDepth_ptrN hTptr d
  have hvnil : v.isNilIface = false := isNilIface_false_of_ne hne
  have hifc : (ptrN d v.typeOf).isIfaceT = false :=
    isIfaceT_false_of_strip (by rw [hstrip]; exact hTiface)
  have hu : getUnderlyingValue v = v := getUnderlyingValue_simple h
  have hcc : defaultConfig.customConverters = [] := rfl
  have h1 : convertType defaultConfig (n + 1) v (ptrN d v.typeOf)
      = .ok (wrapPtrs d v) := by
    simp only [convertType, convertTypeF, hifc, hvnil, Bool.false_and,
      Bool.false_eq_true, if_false, hstrip, hcc, runConvertersFrom]
    rw [convertToNonPtrF_underlying_simple _ v v hu h]
  have hifc2 : (v.typeOf).isIfaceT = false := isIfaceT_false_of_ne hTiface
  have hwnil : (wrapPtrs d v).isNilIface = false :=
    isNilIface_false_of_ne (wrapPtrs_ne_vnil h d)
  have hstrip2 : stripPtrDepth v.typeOf = (0, v.typeOf) :=
    stripPtrDepth_of_not_ptr hTptr
  have hu2 : getUnderlyingValue (wrapPtrs d v) = v :=
    getUnderlyingValue_wrapPtrs h d
  have h2 : convertType defaultConfig (m + 1) (wrapPtrs d v) v.typeOf
      = .ok v := by
    simp only [convertType, convertTypeF, hifc2, hwnil, Bool.false_and,
      Bool.false_eq_true, if_false, hstrip2, hcc, runConvertersFrom]
    rw [convertToNonPtrF_underlying_simple _ (wrapPtrs d v) v hu2 h]
    rfl
  rw [h1]
  exact h2

theorem convertToNonPtrF_strMap_single (cfg : GoConfig) (rec : RecFun)
    (v : GoValue) (hv : v ≠ .vnil) (base : GoType) :
    convertToNonPtrF cfg rec (.strMap (some [(emptyString, v)])) base
      = rec v base := by
  have h1 : isSimpleType .strMap = false := rfl
  have h2 : (GoType.kind .strMap == GoKind.kMap) = true := rfl
  simp [convertToNonPtrF, getUnderlyingValue, GoValue.typeOf, h1, h2,
    tryFlatten_single hv]

/-- C2 counterexample: for the empty-interface destination, `ConvertType`
returns the single-empty-key map itself (step 1 of the algorithm) instead
of recursing on the entry's value, which would give `123`. -/
theorem c2_flatten_counterexample :
    convertType defaultConfig 5 emptyKeyMap123 .iface = .ok emptyKeyMap123 ∧
    convertType defaultConfig 4 (intV 123) .iface = .ok (intV 123) ∧
    emptyKeyMap123 ≠ intV 123 :=
  ⟨rfl, rfl, fun hh => GoValue.noConfusion hh⟩

/-- C2 (amended): the flattening contract recurses on the entry's value
against the pointer-stripped base destination type and re-wraps the
pointer layers afterwards.  Whenever the entry value is non-nil and the
pointer-stripped destination is not the empty interface, this agrees with
converting the entry's value against the full destination type (up to the
one extra `ConvertType` error wrap of the outer call); in particular
`ConvertType(map[string]any{"": 123}, typeof(int))` returns `123`. -/
theorem c2_flatten_recurses (n : Nat) (v : GoValue) (dst : GoType)
    (hv : v ≠ .vnil) (hb : (stripPtrDepth dst).2 ≠ .iface) :
    convertType defaultConfig (n + 2) (.strMap (some [(emptyString, v)])) dst
      = (convertType defaultConfig (n + 1) v dst).mapError
          (.forFn .fConvertType) := by
  have hcc : defaultConfig.customConverters = [] := rfl
  have hdifc : dst.isIfaceT = false := isIfaceT_false_of_strip hb
  have hvn : v.isNilIface = false := isNilIface_false_of_ne hv
  have hbifc : (stripPtrDepth dst).2.isIfaceT = false := isIfaceT_false_of_ne hb
  have hbptr : (stripPtrDepth dst).2.isPtrT = false :=
    stripPtrDepth_snd_not_ptr dst
  have hbstrip : stripPtrDepth (stripPtrDepth dst).2
      = (0, (stripPtrDepth dst).2) := stripPtrDepth_of_not_ptr hbptr
  have hflat := convertToNonPtrF_strMap_single defaultConfig
    (convertType defaultConfig (n + 1)) v hv (stripPtrDepth dst).2
  have hunf : ∀ (m : Nat) (src : GoValue) (d : GoType),
      convertType defaultConfig (m + 1) src d
        = convertTypeF defaultConfig (convertType defaultConfig m) src d :=
    fun _ _ _ => rfl
  rw [hunf, hunf]
  unfold convertTypeF
  simp only [hdifc, hvn, hcc, GoValue.isNilIface, Bool.false_and,
    Bool.and_false, Bool.false_eq_true, if_false, runConvertersFrom]
  rw [hflat, hunf]
  simp only [convertTypeF, hbifc, hvn, hcc, runConvertersFrom,
    Bool.false_and, Bool.and_false, Bool.false_eq_true, if_false,
    hbstrip, wrapPtrs]
  cases hR : convertToNonPtrF defaultConfig (convertType defaultConfig n) v
      (stripPtrDepth dst).2 with
  | ok r => simp [hR, Except.mapError]
  | error e => simp [hR, Except.mapError]

theorem c2_flatten_recurses_witness :
    (intV 123 : GoValue) ≠ .vnil ∧
      (stripPtrDepth tyIntGo).2 ≠ .iface ∧
      convertType defaultConfig 5 emptyKeyMap123 tyIntGo
        = (convertType defaultConfig 4 (intV 123) tyIntGo).mapError
            (.forFn .fConvertType) :=
  ⟨fun hh => GoValue.noConfusion hh, fun hh => GoType.noConfusion hh,
   c2_flatten_recurses 3 (intV 123) tyIntGo (fun hh => GoValue.noConfusion hh)
     (fun hh => GoType.noConfusion hh)⟩

theorem goTrunc_intCast (z : ℤ) : goTrunc (z : ℚ) = z := by
  unfold goTrunc
  have h1 : ((z : ℚ)).floor = ⌊(z : ℚ)⌋ := rfl
  have h2 : ((-(z : ℚ))).floor = ⌊(-(z : ℚ))⌋ := rfl
  rw [h1, h2]
  split
  · rw [show -(z : ℚ) = ((-z : ℤ) : ℚ) by push_cast; ring, Int.floor_intCast]
    ring
  · rw [Int.floor_intCast]

/-- A float64-representable rational with a non-zero fractional part has
absolute value below `2^53`: its exponent must be negative, which caps the
magnitude at the mantissa bound. -/
theorem float64Repr_fraction_abs_lt (q : ℚ) (hrep : float64Repr q)
    (hne : q ≠ ((goTrunc q : Int) : ℚ)) : |q| < 2 ^ 53 := by
  obtain ⟨m, e, hm, hq⟩ := hrep
  rcases le_or_lt 0 e with he | he
  · exfalso
    apply hne
    lift e to ℕ using he
    have hz : q = ((m * 2 ^ e : Int) : ℚ) := by
      rw [hq]
      push_cast
      rw [zpow_natCast]
    rw [hz, goTrunc_intCast]
  · have h2 : (2 : ℚ) ^ e ≤ (2 : ℚ) ^ (-1 : ℤ) := by
      apply zpow_le_zpow_right₀ (by norm_num) (by omega)
    have h2pos : (0 : ℚ) < (2 : ℚ) ^ e := zpow_pos (by norm_num) e
    have hmq : |(m : ℚ)| ≤ 2 ^ 53 - 1 := by
      have hm' : (m.natAbs : ℚ) ≤ (2 : ℚ) ^ 53 - 1 := by
        have hb : (m.natAbs : ℕ) ≤ 2 ^ 53 - 1 := by omega
        calc (m.natAbs : ℚ) ≤ ((2 ^ 53 - 1 : ℕ) : ℚ) := by exact_mod_cast hb
          _ = (2 : ℚ) ^ 53 - 1 := by push_cast; ring
      calc |(m : ℚ)| = (m.natAbs : ℚ) := by
            rw [Int.cast_natAbs, Int.cast_abs]
        _ ≤ (2 : ℚ) ^ 53 - 1 := hm'
    have habs : |q| = |(m : ℚ)| * (2 : ℚ) ^ e := by
      rw [hq, abs_mul, abs_of_pos h2pos]
    have hhalf : (2 : ℚ) ^ (-1 : ℤ) = 1 / 2 := by norm_num
    have hmnn : 0 ≤ |(m : ℚ)| := abs_nonneg _
    calc |q| = |(m : ℚ)| * (2 : ℚ) ^ e := habs
      _ ≤ |(m : ℚ)| * (2 : ℚ) ^ (-1 : ℤ) :=
          mul_le_mul_of_nonneg_left h2 hmnn
      _ ≤ ((2 : ℚ) ^ 53 - 1) * (1 / 2) := by
          rw [hhalf]
          nlinarith
      _ < 2 ^ 53 := by norm_num

theorem convertDeref_none_of_hasNil :
    ∀ v : GoValue, hasNilInChain v = true → convertDeref v = none
  | .ptr _ none => fun _ => rfl
  | .ptr _ (some inner) => fun h => by
    have hi : hasNilInChain inner = true := by
      simpa [hasNilInChain] using h
    simpa [convertDeref] using convertDeref_none_of_hasNil inner hi
  | .vnil => fun h => by simp [hasNilInChain] at h
  | .prim _ => fun h => by simp [hasNilInChain] at h
  | .time _ => fun h => by simp [hasNilInChain] at h
  | .slice _ _ => fun h => by simp [hasNilInChain] at h
  | .strMap _ => fun h => by simp [hasNilInChain] at h
  | .strct _ _ => fun h => by simp [hasNilInChain] at h

/-- C5 counterexample: `Convert(nil, ptr)` where `ptr` is a non-nil
`**int` whose inner `*int` is nil.  The inner pointer is uninitialized, so
the claim demands the `underlyingMustInit` panic; the code's nil-source
early return fires first and `Convert` returns a nil error instead. -/
theorem c5_convert_preconditions_counterexample :
    goConvert defaultConfig 5 .vnil
        (.ptr (.ptr tyIntGo) (some (.ptr tyIntGo none)))
      = .returned none ∧
    ConvOutcome.returned none
      ≠ .panicked (.forFn .fConvert .underlyingMustInit) := by
  exact ⟨rfl, by decide⟩

/-- C5 (amended): `Convert` panics with `mustBePointer` whenever the
destination is not a pointer, and with `ptrMustInit` whenever the
top-level destination pointer is nil — both regardless of the source.  A
nil pointer strictly inside the chain panics with `underlyingMustInit`
only when the source is non-nil (default configuration); when the source
is nil, `Convert` returns a nil error before ever inspecting the inner
chain. -/
theorem c5_convert_preconditions :
    (∀ (cfg : GoConfig) (n : Nat) (src dstPtr : GoValue),
        dstPtr.kind ≠ .kPtr →
        goConvert cfg n src dstPtr
          = .panicked (.forFn .fConvert .mustBePointer)) ∧
    (∀ (cfg : GoConfig) (n : Nat) (src : GoValue) (t : GoType),
        goConvert cfg n src (.ptr t none)
          = .panicked (.forFn .fConvert .ptrMustInit)) ∧
    (∀ (n : Nat) (src : GoValue) (t : GoType) (inner : GoValue),
        src.isNilIface = false → hasNilInChain inner = true →
        goConvert defaultConfig n src (.ptr t (some inner))
          = .panicked (.forFn .fConvert .underlyingMustInit)) ∧
    (∀ (cfg : GoConfig) (n : Nat) (t : GoType) (inner : GoValue),
        goConvert cfg n .vnil (.ptr t (some inner)) = .returned none) := by
  refine ⟨fun cfg n src dstPtr hk => ?_, fun cfg n src t => ?_,
    fun n src t inner hs hnil => ?_, fun cfg n t inner => ?_⟩
  · have hb : (dstPtr.kind != GoKind.kPtr) = true := by
      simpa [bne] using hk
    simp [goConvert, hb]
  · simp [goConvert, GoValue.kind, GoValue.isNilPtr]
  · have hcc : defaultConfig.customConverters = [] := rfl
    have hd : convertDeref inner = none := convertDeref_none_of_hasNil inner hnil
    simp [goConvert, GoValue.kind, GoValue.isNilPtr, hs, hcc,
      runConvertersConvertFrom, convertDeref, hd]
  · simp [goConvert, GoValue.kind, GoValue.isNilPtr, GoValue.isNilIface]

/-- C4 counterexample: `-1.5` converted to `uint8`.  The fractional part
is non-zero, so the claim demands `PrecisionLoss`; `doFloatToUint` checks
the sign before the fractional part and reports `Overflow` instead. -/
theorem c4_fraction_counterexample :
    toUint8P (.pf .f64 (-(3 / 2))) = .error (.overflow .kUint8) ∧
    (Except.error (.overflow .kUint8) : Except GoErr Prim)
      ≠ .error (.precisionLoss .kUint8) := by
  constructor
  · have hneg : (-(3 / 2) : ℚ) < 0 := by norm_num
    simp [toUint8P, doPrimitiveToUint64, doFloatToUint, hneg]
  · intro hh
    exact absurd (Except.error.inj hh) (by decide)

/-- C4 (amended): a float64-representable float with a non-zero
fractional part converted to a signed integer kind fails with
`PrecisionLoss`; converted to an unsigned kind it fails with
`PrecisionLoss` when non-negative but with `Overflow` when negative (the
sign check of `doFloatToUint` runs first). -/
theorem c4_fraction_precision_loss (fk : FloatK) (q : ℚ)
    (hrep : float64Repr q) (hne : q ≠ ((goTrunc q : Int) : ℚ)) :
    (toIntP (.pf fk q) = .error (.precisionLoss .kInt) ∧
     toInt8P (.pf fk q) = .error (.precisionLoss .kInt8) ∧
     toInt16P (.pf fk q) = .error (.precisionLoss .kInt16) ∧
     toInt32P (.pf fk q) = .error (.precisionLoss .kInt32) ∧
     toInt64P (.pf fk q) = .error (.precisionLoss .kInt64)) ∧
    (0 ≤ q →
      toUintP (.pf fk q) = .error (.precisionLoss .kUint) ∧
      toUint8P (.pf fk q) = .error (.precisionLoss .kUint8) ∧
      toUint16P (.pf fk q) = .error (.precisionLoss .kUint16) ∧
      toUint32P (.pf fk q) = .error (.precisionLoss .kUint32) ∧
      toUint64P (.pf fk q) = .error (.precisionLoss .kUint64)) ∧
    (q < 0 →
      toUintP (.pf fk q) = .error (.overflow .kUint) ∧
      toUint8P (.pf fk q) = .error (.overflow .kUint8) ∧
      toUint16P (.pf fk q) = .error (.overflow .kUint16) ∧
      toUint32P (.pf fk q) = .error (.overflow .kUint32) ∧
      toUint64P (.pf fk q) = .error (.overflow .kUint64)) := by
  have habs := float64Repr_fraction_abs_lt q hrep hne
  rw [abs_lt] at habs
  have hbig : (2 : ℚ) ^ 53 ≤ 2 ^ 63 := by norm_num
  have hbig2 : (2 : ℚ) ^ 53 ≤ 2 ^ 64 := by norm_num
  refine ⟨?_, fun hq0 => ?_, fun hqneg => ?_⟩
  · have hnoS : ¬(q < minInt64F ∨ q > maxInt64F) := by
      simp only [minInt64F, maxInt64F, not_or, not_lt]
      exact ⟨by linarith [habs.1], by linarith [habs.2]⟩
    have hdo : ∀ dst, doFloat64ToInt64 q dst = .error (.precisionLoss dst) := by
      intro dst
      simp [doFloat64ToInt64, hnoS, hne]
    exact ⟨by simp [toIntP, doPrimitiveToInt64, hdo],
      by simp [toInt8P, doPrimitiveToInt64, hdo],
      by simp [toInt16P, doPrimitiveToInt64, hdo],
      by simp [toInt32P, doPrimitiveToInt64, hdo],
      by simp [toInt64P, doPrimitiveToInt64, hdo, Except.map]⟩
  · have hnoU : ¬(q < 0 ∨ q > maxUint64F) := by
      simp only [maxUint64F, not_or, not_lt]
      exact ⟨hq0, by linarith [habs.2]⟩
    have hdo : ∀ dst, doFloatToUint q dst = .error (.precisionLoss dst) := by
      intro dst
      simp [doFloatToUint, hnoU, hne]
    exact ⟨by simp [toUintP, doPrimitiveToUint64, hdo],
      by simp [toUint8P, doPrimitiveToUint64, hdo],
      by simp [toUint16P, doPrimitiveToUint64, hdo],
      by simp [toUint32P, doPrimitiveToUint64, hdo],
      by simp [toUint64P, doPrimitiveToUint64, hdo, Except.map]⟩
  · have hdo : ∀ dst, doFloatToUint q dst = .error (.overflow dst) := by
      intro dst
      simp [doFloatToUint, hqneg]
    exact ⟨by simp [toUintP, doPrimitiveToUint64, hdo],
      by simp [toUint8P, doPrimitiveToUint64, hdo],
      by simp [toUint16P, doPrimitiveToUint64, hdo],
      by simp [toUint32P, doPrimitiveToUint64, hdo],
      by simp [toUint64P, doPrimitiveToUint64, hdo, Except.map]⟩

theorem c4_fraction_precision_loss_witness :
    float64Repr (3 / 2 : ℚ) ∧
    (3 / 2 : ℚ) ≠ ((goTrunc (3 / 2 : ℚ) : Int) : ℚ) ∧
    (0 : ℚ) ≤ 3 / 2 ∧
    toInt8P (.pf .f64 (3 / 2)) = .error (.precisionLoss .kInt8) ∧
    toUint8P (.pf .f64 (3 / 2)) = .error (.precisionLoss .kUint8) := by
  have hrep : float64Repr (3 / 2 : ℚ) := ⟨3, -1, by norm_num, by norm_num⟩
  have hne : (3 / 2 : ℚ) ≠ ((goTrunc (3 / 2 : ℚ) : Int) : ℚ) := by
    have htr : goTrunc (3 / 2 : ℚ) = 1 := by
      unfold goTrunc
      rw [if_neg (by norm_num : ¬((3 / 2 : ℚ) < 0)),
        show ((3 / 2 : ℚ)).floor = ⌊(3 / 2 : ℚ)⌋ from rfl]
      norm_num
    rw [htr]
    norm_num
  exact ⟨hrep, hne, by norm_num,
    (c4_fraction_precision_loss .f64 (3 / 2) hrep hne).1.2.1,
    ((c4_fraction_precision_loss .f64 (3 / 2) hrep hne).2.1
      (by norm_num)).2.1⟩

theorem c5_convert_preconditions_witness :
    goConvert defaultConfig 3 (intV 1) (intV 2)
      = .panicked (.forFn .fConvert .mustBePointer) ∧
    goConvert defaultConfig 3 (intV 1) (.ptr tyIntGo none)
      = .panicked (.forFn .fConvert .ptrMustInit) ∧
    goConvert defaultConfig 3 (intV 1)
        (.ptr (.ptr tyIntGo) (some (.ptr tyIntGo none)))
      = .panicked (.forFn .fConvert .underlyingMustInit) ∧
    goConvert defaultConfig 3 .vnil
        (.ptr (.ptr tyIntGo) (some (.ptr tyIntGo none)))
      = .returned none :=
  ⟨c5_convert_preconditions.1 defaultConfig 3 (intV 1) (intV 2) (by decide),
   c5_convert_preconditions.2.1 defaultConfig 3 (intV 1) tyIntGo,
   c5_convert_preconditions.2.2.1 3 (intV 1) (.ptr tyIntGo)
     (.ptr tyIntGo none) rfl rfl,
   c5_convert_preconditions.2.2.2 defaultConfig 3 (.ptr tyIntGo)
     (.ptr tyIntGo none)⟩

theorem runConvertersFrom_append_noop (src : GoValue) (dst : GoType) :
    ∀ (cs₀ cs : List ConvFunc) (i : Nat),
      (∀ g ∈ cs₀, g src dst = (none, none)) →
      runConvertersFrom src dst (cs₀ ++ cs) i
        = runConvertersFrom src dst cs (i + cs₀.length)
  | [], cs, i, _ => by simp [runConvertersFrom]
  | g :: cs₀, cs, i, h => by
    have hg : g src dst = (none, none) := h g (by simp)
    have ih := runConvertersFrom_append_noop src dst cs₀ cs (i + 1)
      (fun g' hg' => h g' (by simp [hg']))
    have harith : i + 1 + cs₀.length = i + (g :: cs₀).length := by
      simp [List.length_cons]; omega
    rw [List.cons_append, runConvertersFrom, hg]
    rw [show (match (none, none) with
        | (_, some e) =>
          Except.error (GoErr.forFn .fConvertType (.converterFail i e))
        | (some res, none) => Except.ok (some res)
        | (none, none) => runConvertersFrom src dst (cs₀ ++ cs) (i + 1)
          : Except GoErr (Option GoValue))
      = runConvertersFrom src dst (cs₀ ++ cs) (i + 1) from rfl]
    rw [ih, harith]

/-- C6: with custom converters configured (and the empty-interface and
nil-to-pointer shortcuts not applying), `ConvertType` runs the converters
in registration order on `(src, dstType)`: after any prefix of
no-opinion converters, the first converter returning a non-nil result
makes `ConvertType` return that result; the first converter returning an
error makes `ConvertType` return that error (tagged with the converter's
registration index) without running later converters or the built-in
rules; and if every converter has no opinion, `ConvertType` falls through
to the built-in strip/convert/re-wrap pipeline. -/
theorem c6_custom_converter_order (cs₀ rest : List ConvFunc) (f : ConvFunc)
    (n : Nat) (src : GoValue) (dst : GoType)
    (hdifc : dst.isIfaceT = false) (hs : src.isNilIface = false)
    (h₀ : ∀ g ∈ cs₀, g src dst = (none, none)) :
    (∀ r : GoValue, f src dst = (some r, none) →
      convertType (cfgWithConverters (cs₀ ++ f :: rest)) (n + 1) src dst
        = .ok r) ∧
    (∀ (ro : Option GoValue) (e : GoErr), f src dst = (ro, some e) →
      convertType (cfgWithConverters (cs₀ ++ f :: rest)) (n + 1) src dst
        = .error (.forFn .fConvertType (.converterFail cs₀.length e))) ∧
    ((∀ g ∈ cs₀ ++ f :: rest, g src dst = (none, none)) →
      convertType (cfgWithConverters (cs₀ ++ f :: rest)) (n + 1) src dst
        = match convertToNonPtrF (cfgWithConverters (cs₀ ++ f :: rest))
            (convertType (cfgWithConverters (cs₀ ++ f :: rest)) n) src
            (stripPtrDepth dst).2 with
          | .error e => .error (.forFn .fConvertType e)
          | .ok v => .ok (wrapPtrs (stripPtrDepth dst).1 v)) := by
  have hrun : runConvertersFrom src dst (cs₀ ++ f :: rest) 0
      = runConvertersFrom src dst (f :: rest) cs₀.length := by
    simpa using runConvertersFrom_append_noop src dst cs₀ (f :: rest) 0 h₀
  have hunf : convertType (cfgWithConverters (cs₀ ++ f :: rest)) (n + 1)
        src dst
      = convertTypeF (cfgWithConverters (cs₀ ++ f :: rest))
          (convertType (cfgWithConverters (cs₀ ++ f :: rest)) n) src dst :=
    rfl
  have hcs : (cfgWithConverters (cs₀ ++ f :: rest)).customConverters
      = cs₀ ++ f :: rest := rfl
  refine ⟨fun r hf => ?_, fun ro e hf => ?_, fun hall => ?_⟩
  · rw [hunf]; unfold convertTypeF
    simp [hdifc, hs, hcs, hrun, runConvertersFrom, hf]
  · rw [hunf]; unfold convertTypeF
    simp [hdifc, hs, hcs, hrun, runConvertersFrom, hf]
  · have hrall : runConvertersFrom src dst (cs₀ ++ f :: rest) 0 = .ok none := by
      have := runConvertersFrom_append_noop src dst (cs₀ ++ f :: rest) [] 0 hall
      simpa [runConvertersFrom] using this
    rw [hunf]; unfold convertTypeF
    simp [hdifc, hs, hcs, hrall]

theorem c6_custom_converter_order_witness :
    convertType (cfgWithConverters [convNoop, convTo7]) 3 (intV 1) tyIntGo
      = .ok (intV 7) ∧
    convertType (cfgWithConverters [convNoop, convFail]) 3 (intV 1) tyIntGo
      = .error (.forFn .fConvertType (.converterFail 1 .cantConvert)) :=
  ⟨(c6_custom_converter_order [convNoop] [] convTo7 2 (intV 1) tyIntGo rfl rfl
      (fun g hg => by rw [List.mem_singleton.mp hg]; rfl)).1 (intV 7) rfl,
   (c6_custom_converter_order [convNoop] [] convFail 2 (intV 1) tyIntGo rfl rfl
      (fun g hg => by rw [List.mem_singleton.mp hg]; rfl)).2.1 none .cantConvert
     rfl⟩

theorem c7_pointer_depth_roundtrip_witness :
    simpleWF (intV 5) ∧
      (convertType defaultConfig 4 (intV 5) (ptrN 3 (GoValue.typeOf (intV 5)))).bind
        (fun r => convertType defaultConfig 4 r (GoValue.typeOf (intV 5))) = .ok (intV 5) :=
  ⟨by decide, c7_pointer_depth_roundtrip (intV 5) (by decide) 3 3 3⟩

end GoConv

